import Mathlib

/-!
The orakl node: a shallow embedding

The definitions follow `node/pkg/aggregator/node.go` (the `AggregatorNode`
handlers `LeaderJob`, `HandleCustomMessage`, `HandleRoundSyncMessage` and
`HandlePriceDataMessage`) and `node/pkg/aggregator/types.go` (the round state
and the store of the latest local aggregates), `node/pkg/admin/config/controller.go`
(`setDefaultIntervals`, `Insert`, the bulk delete of `sync`),
`node/pkg/dal/utils/utils.go` (the key check of the API) and
`node/pkg/chain/helper/helper.go` (`MakeDirectTx`, `SubmitDirect`).

Conventions of the embedding:

* a Go `error` result is `Option GoError` (`none` is `nil`);
* the pub/sub view, the database and the transport are inputs of a handler
  call: `peers` is `len(n.Raft.Ps.ListPeers(topic))`, `dbErr` is what
  `db.QueryRow` answers to the insert, `pubErr` is what `PublishMessage` answers,
  `rdb` and `pgs` are what the two lookups of the latest local aggregate answer;
* what a handler does to the outside world is returned as a list of `Effect`s,
  in program order;
* a Go map `map[K]V` is a function `K → Option V` (`none`: no entry).
-/

namespace Orakl

/-- Go `error` values met in the aggregator. -/
inductive GoError where
  | json (detail : String)
  | db (detail : String)
  | pubsub (detail : String)
  deriving DecidableEq, Repr

/-- The `raft.MessageType` tags the aggregator dispatches on. -/
inductive MessageType where
  | RoundSync
  | PriceData
  | Other (tag : String)
  deriving DecidableEq, Repr

/-- The payload `RoundSyncMessage{LeaderID, RoundID}` built in `LeaderJob`. -/
structure RoundSyncMessage where
  LeaderID : String
  RoundID : Int
  deriving DecidableEq, Repr

/-- The payload `PriceDataMessage{RoundID, PriceData}`. -/
structure PriceDataMessage where
  RoundID : Int
  PriceData : Int
  deriving DecidableEq, Repr

/-- A `json.RawMessage`, described by what `json.Unmarshal` answers for each of
the two payload types (`Sum.inl e`: the decode error `e`). -/
structure RawMessage where
  asRoundSync : GoError ⊕ RoundSyncMessage
  asPriceData : GoError ⊕ PriceDataMessage
  deriving DecidableEq, Repr

/-- The envelope `raft.Message{Type, SentFrom, Data}` (`Type_` is its `Type`). -/
structure Message where
  Type_ : MessageType
  SentFrom : String
  Data : RawMessage
  deriving DecidableEq, Repr

/-- `json.Marshal(roundMessage)`: decoding it back as a `RoundSyncMessage` gives
the message; decoded as a `PriceDataMessage` the shared `roundID` key is read
and the absent `priceData` stays at its zero value. -/
def marshalRoundSync (m : RoundSyncMessage) : RawMessage :=
  { asRoundSync := Sum.inr m
    asPriceData := Sum.inr { RoundID := m.RoundID, PriceData := 0 } }

/-- `json.Marshal(priceDataMessage)`, see `marshalRoundSync`. -/
def marshalPriceData (m : PriceDataMessage) : RawMessage :=
  { asRoundSync := Sum.inr { LeaderID := "", RoundID := m.RoundID }
    asPriceData := Sum.inr m }

/-- What a handler does to the outside world. -/
inductive Effect where
  | publish (m : Message)
  | insertGlobalAggregate (name : String) (value : Int) (round : Int)
  deriving DecidableEq, Repr

/-- How a handler call ends: `nil`, an `error`, or a run-time abort before the
`return` is reached. -/
inductive Return where
  | nil
  | err (e : GoError)
  | aborted
  deriving DecidableEq, Repr

/-- The fields of `AggregatorNode` the handlers read and write. `HostID` is
`n.Raft.Host.ID().String()`; times are instants counted from Go's zero time.
`Leader` is the id of the leader that the Raft layer behind `n.Raft` holds; no
handler of node.go reads it. -/
structure AggregatorNode where
  Name : String
  HostID : String
  Leader : String
  RoundID : Int
  LastLocalAggregateTime : Int
  CollectedPrices : Int → Option (List Int)

/-- A handler call: the node afterwards, its effects, and how it returned. -/
structure Result where
  node : AggregatorNode
  effects : List Effect
  ret : Return

/-- Two's-complement wrap of an integer to `w` bits (Go's signed overflow). -/
def wrapSigned (w : Nat) (x : Int) : Int :=
  (x + 2 ^ (w - 1)) % 2 ^ w - 2 ^ (w - 1)

/-- Go's `error` result of `PublishMessage` as a `Return`. -/
def Return.ofError : Option GoError → Return
  | none => Return.nil
  | some e => Return.err e

/-- `LeaderJob` (node.go:64): `n.RoundID++`, then one `RoundSync` message is
published. `w` is the bit width of the `RoundID` field: 64 in node.go, where the
round id is an `int64` (it keys `map[int64][]int64` at node.go:36 and is passed
as `round int64` at node.go:188). Marshalling a struct of a string and an integer
has no error case. -/
def LeaderJob (w : Nat) (pubErr : Option GoError) (n : AggregatorNode) : Result :=
  let n1 := { n with RoundID := wrapSigned w (n.RoundID + 1) }
  let roundMessage : RoundSyncMessage := { LeaderID := n1.HostID, RoundID := n1.RoundID }
  let message : Message :=
    { Type_ := MessageType.RoundSync
      SentFrom := n1.HostID
      Data := marshalRoundSync roundMessage }
  { node := n1, effects := [Effect.publish message], ret := Return.ofError pubErr }

/-- Modelled from the spec: `FilterNegative` (called at node.go:161) is not in
the sources. The spec: "filter out all `SENTINEL_IGNORE` values", where
`SENTINEL_IGNORE` is "a reserved negative integer (e.g. `-1`)"; the negative
values are dropped and the order of the others is kept. -/
def FilterNegative (values : List Int) : List Int :=
  values.filter (fun v => decide (0 ≤ v))

/-- Modelled from the spec: `utils.FindMedianInt64` (called at node.go:164) is
not in the sources. The spec: the median is "lower-middle by index after sort
ascending" for an even count and "undefined for empty set which aborts the round
with no write"; `none` is the undefined case. -/
def FindMedianInt64 (nums : List Int) : Option Int :=
  let sorted := nums.insertionSort (fun a b => a ≤ b)
  sorted[(sorted.length - 1) / 2]?

/-- Go map assignment `m[k] = v`. -/
def mapSet {V : Type} (m : Int → Option V) (k : Int) (v : V) : Int → Option V :=
  fun j => if j = k then some v else m j

/-- Go `delete(m, k)`. -/
def mapDelete {V : Type} (m : Int → Option V) (k : Int) : Int → Option V :=
  fun j => if j = k then none else m j

/-- `HandlePriceDataMessage` (node.go:147). `peers` is the length of the peer
list of the topic, `dbErr` the answer of the database to the insert. -/
def HandlePriceDataMessage (peers : Nat) (dbErr : Option GoError) (n : AggregatorNode)
    (msg : Message) : Result :=
  match msg.Data.asPriceData with
  | Sum.inl e => { node := n, effects := [], ret := Return.err e }
  | Sum.inr priceDataMessage =>
    let collected := (n.CollectedPrices priceDataMessage.RoundID).getD [] ++
      [priceDataMessage.PriceData]
    let n1 := { n with
      CollectedPrices := mapSet n.CollectedPrices priceDataMessage.RoundID collected }
    if collected.length ≥ peers + 1 then
      match FindMedianInt64 (FilterNegative collected) with
      | none => { node := n1, effects := [], ret := Return.aborted }
      | some median =>
        let insert := Effect.insertGlobalAggregate n1.Name median priceDataMessage.RoundID
        match dbErr with
        | some e => { node := n1, effects := [insert], ret := Return.err e }
        | none =>
          { node := { n1 with
              CollectedPrices := mapDelete n1.CollectedPrices priceDataMessage.RoundID }
            effects := [insert]
            ret := Return.nil }
    else
      { node := n1, effects := [], ret := Return.nil }

/-- A `PriceData` frame as a peer publishes it (node.go:128-142). -/
def priceFrame (sender : String) (round value : Int) : Message :=
  { Type_ := MessageType.PriceData
    SentFrom := sender
    Data := marshalPriceData { RoundID := round, PriceData := value } }

/-- A node that has collected nothing yet (`NewNode`, node.go:31-38). -/
def freshNode (name host : String) : AggregatorNode :=
  { Name := name, HostID := host, Leader := "", RoundID := 0, LastLocalAggregateTime := 0
    CollectedPrices := fun _ => none }

/-- A node that holds `prices` for `round` and nothing else. -/
def nodeWith (name host : String) (round : Int) (prices : List Int) : AggregatorNode :=
  { Name := name, HostID := host, Leader := "", RoundID := 0, LastLocalAggregateTime := 0
    CollectedPrices := fun r => if r = round then some prices else none }

/-- The prices collected for `round` once `value` is appended (node.go:155-159):
a missing entry counts as the empty list. -/
def collectedAfter (n : AggregatorNode) (round value : Int) : List Int :=
  (n.CollectedPrices round).getD [] ++ [value]

/-- Feeding frames to `HandlePriceDataMessage` one after the other, each with
the answer the database gives should that call insert: the node at the end and
all effects, in order. A call that returns an error or aborts ends the handling
of that frame only (the spec: the undefined median "aborts the round"); the next
frame is handled on the node as that call left it. -/
def feed (peers : Nat) (n : AggregatorNode) :
    List (Option GoError × Message) → AggregatorNode × List Effect
  | [] => (n, [])
  | c :: cs =>
    let r := HandlePriceDataMessage peers c.1 n c.2
    let rest := feed peers r.node cs
    (rest.1, r.effects ++ rest.2)

/-- The values `insertGlobalAggregate` was called with for `round`, in order. -/
def insertsFor (round : Int) : List Effect → List Int
  | [] => []
  | Effect.insertGlobalAggregate _ value r :: es =>
    if r = round then value :: insertsFor round es else insertsFor round es
  | Effect.publish _ :: es => insertsFor round es

/-- The prices the frames of a sequence carry for `round`, in arrival order
(frames that do not decode carry none). -/
def pricesFor (round : Int) : List (Option GoError × Message) → List Int
  | [] => []
  | c :: cs =>
    match c.2.Data.asPriceData with
    | Sum.inr d => if d.RoundID = round then d.PriceData :: pricesFor round cs
      else pricesFor round cs
    | Sum.inl _ => pricesFor round cs

/-- Consecutive `LeaderJob` calls on one node, one per transport answer: the
node at the end and all effects, in order. -/
def leaderJobs (w : Nat) (n : AggregatorNode) :
    List (Option GoError) → AggregatorNode × List Effect
  | [] => (n, [])
  | e :: es =>
    let r := LeaderJob w e n
    let rest := leaderJobs w r.node es
    (rest.1, r.effects ++ rest.2)

/-- The round ids carried by the published `RoundSync` messages, in order. -/
def triggerRounds : List Effect → List Int
  | [] => []
  | Effect.publish m :: es =>
    match m.Type_, m.Data.asRoundSync with
    | MessageType.RoundSync, Sum.inr d => d.RoundID :: triggerRounds es
    | _, _ => triggerRounds es
  | Effect.insertGlobalAggregate _ _ _ :: es => triggerRounds es

/-- The record `types.LocalAggregate` (common/types/types.go:35); `Timestamp` is
an instant counted from Go's zero time, so `0` is the zero `time.Time`. -/
structure LocalAggregate where
  ConfigID : Int
  Value : Int
  Timestamp : Int
  deriving DecidableEq, Repr

/-- `getLatestLocalAggregate` (node.go:176): the Redis answer `rdb` is used
when it is no error, else the Postgres answer `pgs`, whose error is returned. -/
def getLatestLocalAggregate (rdb pgs : GoError ⊕ LocalAggregate) : GoError ⊕ (Int × Int) :=
  match rdb with
  | Sum.inl _ =>
    match pgs with
    | Sum.inl err => Sum.inl err
    | Sum.inr pgsqlAggregate => Sum.inr (pgsqlAggregate.Value, pgsqlAggregate.Timestamp)
  | Sum.inr redisAggregate => Sum.inr (redisAggregate.Value, redisAggregate.Timestamp)

/-- `HandleRoundSyncMessage` (node.go:104). `rdb` and `pgs` are the answers of
the two lookups of the latest local aggregate, `pubErr` the answer of
`PublishMessage`. `IsZero` of a time is `= 0`, `Equal` is `=`. -/
def HandleRoundSyncMessage (rdb pgs : GoError ⊕ LocalAggregate) (pubErr : Option GoError)
    (n : AggregatorNode) (msg : Message) : Result :=
  match msg.Data.asRoundSync with
  | Sum.inl e => { node := n, effects := [], ret := Return.err e }
  | Sum.inr roundSyncMessage =>
    let n1 := { n with RoundID := roundSyncMessage.RoundID }
    match getLatestLocalAggregate rdb pgs with
    | Sum.inl e => { node := n1, effects := [], ret := Return.err e }
    | Sum.inr (value, updateTime) =>
      let stale : Bool :=
        decide (¬ n1.LastLocalAggregateTime = 0 ∧ n1.LastLocalAggregateTime = updateTime)
      let updateValue : Int := if stale then -1 else value
      let n2 := if stale then n1 else { n1 with LastLocalAggregateTime := updateTime }
      let message : Message :=
        { Type_ := MessageType.PriceData
          SentFrom := n2.HostID
          Data := marshalPriceData { RoundID := n2.RoundID, PriceData := updateValue } }
      { node := n2, effects := [Effect.publish message], ret := Return.ofError pubErr }

/-- `HandleCustomMessage` (node.go:86): the switch on the message type; a type
without a case falls through to `return nil`. -/
def HandleCustomMessage (peers : Nat) (rdb pgs : GoError ⊕ LocalAggregate)
    (pubErr dbErr : Option GoError) (n : AggregatorNode) (message : Message) : Result :=
  match message.Type_ with
  | MessageType.RoundSync => HandleRoundSyncMessage rdb pgs pubErr n message
  | MessageType.PriceData => HandlePriceDataMessage peers dbErr n message
  | MessageType.Other _ => { node := n, effects := [], ret := Return.nil }

/-- A trigger frame as a leader publishes it (node.go:67-81). -/
def triggerFrame (sender : String) (round : Int) : Message :=
  { Type_ := MessageType.RoundSync
    SentFrom := sender
    Data := marshalRoundSync { LeaderID := sender, RoundID := round } }

/-- The struct `RoundTriggers` (types.go:55), without its mutex. -/
structure RoundTriggers where
  locked : Int → Option Bool

/-- The struct `RoundPrices` (types.go:66), without its mutex. -/
structure RoundPrices where
  senders : Int → Option (List String)
  prices : Int → Option (List Int)
  locked : Int → Option Bool

/-- The struct `RoundProofs` (types.go:90), without its mutex; a proof is a
list of bytes. -/
structure RoundProofs where
  senders : Int → Option (List String)
  proofs : Int → Option (List (List Nat))
  locked : Int → Option Bool

/-- The loop `for _, s := range senders { if s == sender { return true } }`
followed by `return false` (types.go:74-79). -/
def senderLoop (sender : String) : List String → Bool
  | [] => false
  | s :: rest => if s = sender then true else senderLoop sender rest

/-- `RoundPrices.isReplay` (types.go:73); indexing a map at a missing key gives
the nil slice, over which the loop does not iterate. -/
def RoundPrices.isReplay (r : RoundPrices) (roundID : Int) (sender : String) : Bool :=
  senderLoop sender ((r.senders roundID).getD [])

/-- `RoundProofs.isReplay` (types.go:97). -/
def RoundProofs.isReplay (r : RoundProofs) (roundID : Int) (sender : String) : Bool :=
  senderLoop sender ((r.senders roundID).getD [])

/-- `RoundTriggers.cleanup` (types.go:60). -/
def RoundTriggers.cleanup (r : RoundTriggers) (roundID : Int) : RoundTriggers :=
  { locked := mapDelete r.locked roundID }

/-- `RoundPrices.cleanup` (types.go:82). -/
def RoundPrices.cleanup (r : RoundPrices) (roundID : Int) : RoundPrices :=
  { senders := mapDelete r.senders roundID
    prices := mapDelete r.prices roundID
    locked := mapDelete r.locked roundID }

/-- `RoundProofs.cleanup` (types.go:106). -/
def RoundProofs.cleanup (r : RoundProofs) (roundID : Int) : RoundProofs :=
  { senders := mapDelete r.senders roundID
    proofs := mapDelete r.proofs roundID
    locked := mapDelete r.locked roundID }

/-- The three round-state structures an `Aggregator` holds (types.go:119-121). -/
structure RoundState where
  RoundTriggers : RoundTriggers
  roundPrices : RoundPrices
  roundProofs : RoundProofs

/-- The call `cleanup(roundID)` on each of the three structures. -/
def RoundState.cleanup (s : RoundState) (roundID : Int) : RoundState :=
  { RoundTriggers := s.RoundTriggers.cleanup roundID
    roundPrices := s.roundPrices.cleanup roundID
    roundProofs := s.roundProofs.cleanup roundID }

/-- The calls `cleanup(r)` for the rounds of a list, one after the other. -/
def RoundState.cleanupAll (s : RoundState) : List Int → RoundState
  | [] => s
  | r :: rs => (s.cleanup r).cleanupAll rs

/-- The round ids `lo, lo + 1, ..., hi`. -/
def roundsBetween (lo hi : Int) : List Int :=
  (List.range (hi + 1 - lo).toNat).map (fun i : Nat => lo + i)

/-- That no map of the round state has an entry for `round`. -/
def RoundState.absent (s : RoundState) (round : Int) : Prop :=
  s.RoundTriggers.locked round = none ∧
  s.roundPrices.senders round = none ∧ s.roundPrices.prices round = none ∧
  s.roundPrices.locked round = none ∧
  s.roundProofs.senders round = none ∧ s.roundProofs.proofs round = none ∧
  s.roundProofs.locked round = none

instance (s : RoundState) (round : Int) : Decidable (s.absent round) := by
  unfold RoundState.absent
  infer_instance

/-- The struct `LatestLocalAggregates` (types.go:152), without its lock. -/
structure LatestLocalAggregates where
  LocalAggregateMap : Int → Option LocalAggregate

/-- `NewLatestLocalAggregates` (types.go:157): the empty map. -/
def NewLatestLocalAggregates : LatestLocalAggregates :=
  { LocalAggregateMap := fun _ => none }

/-- Go's zero value of `types.LocalAggregate`. -/
def LocalAggregate.zero : LocalAggregate :=
  { ConfigID := 0, Value := 0, Timestamp := 0 }

/-- `LatestLocalAggregates.Load` (types.go:163): `result, ok := m[id]`, the zero
value and `false` at a missing key. -/
def LatestLocalAggregates.Load (a : LatestLocalAggregates) (id : Int) : LocalAggregate × Bool :=
  match a.LocalAggregateMap id with
  | some result => (result, true)
  | none => (LocalAggregate.zero, false)

/-- `LatestLocalAggregates.Store` (types.go:170). -/
def LatestLocalAggregates.Store (a : LatestLocalAggregates) (id : Int)
    (aggregate : LocalAggregate) : LatestLocalAggregates :=
  { LocalAggregateMap := mapSet a.LocalAggregateMap id aggregate }

/-- The calls `Store(id, aggregate)` for the pairs of a list, one after the other. -/
def LatestLocalAggregates.storeAll (a : LatestLocalAggregates) :
    List (Int × LocalAggregate) → LatestLocalAggregates
  | [] => a
  | op :: ops => (a.Store op.1 op.2).storeAll ops

/-- The struct `FeedInsertModel` (admin/config/controller.go:22); the definition
is kept as its JSON text. -/
structure FeedInsertModel where
  Name : String
  Definition : String
  ConfigId : Option Int
  deriving DecidableEq, Repr

/-- The struct `ConfigInsertModel` (controller.go:28); a `*int` is an
`Option Int`, `none` being `nil`. -/
structure ConfigInsertModel where
  Name : String
  FetchInterval : Option Int
  AggregateInterval : Option Int
  SubmitInterval : Option Int
  Feeds : List FeedInsertModel
  deriving DecidableEq, Repr

/-- The struct `ConfigModel` (controller.go:36). -/
structure ConfigModel where
  ID : Int
  Name : String
  FetchInterval : Option Int
  AggregateInterval : Option Int
  SubmitInterval : Option Int
  deriving DecidableEq, Repr

/-- The test `p == nil || *p == 0` of `setDefaultIntervals`. -/
def nilOrZero : Option Int → Bool
  | none => true
  | some v => decide (v = 0)

/-- `setDefaultIntervals` (controller.go:237). -/
def setDefaultIntervals (config : ConfigInsertModel) : ConfigInsertModel :=
  let c1 := if nilOrZero config.FetchInterval then { config with FetchInterval := some 2000 }
    else config
  let c2 := if nilOrZero c1.AggregateInterval then { c1 with AggregateInterval := some 3000 }
    else c1
  if nilOrZero c2.SubmitInterval then { c2 with SubmitInterval := some 15000 } else c2

/-- The queries the admin config controller sends to the database. -/
inductive AdminQuery where
  | insertConfig (name : String) (fetch_interval aggregate_interval submit_interval : Option Int)
  | insertFeed (name definition : String) (config_id : Int)
  | query (sql : String)
  deriving DecidableEq, Repr

/-- The loop over `config.Feeds` of `Insert` (controller.go:178-185): one
`InsertFeedQuery` per feed, stopped by the first error; `feedErr i` is the answer
of the database to the insert of the feed at position `i`. -/
def insertFeeds (configID : Int) (feedErr : Nat → Option GoError) :
    Nat → List FeedInsertModel → List AdminQuery × Option GoError
  | _, [] => ([], none)
  | i, feed :: rest =>
    match feedErr i with
    | some err => ([AdminQuery.insertFeed feed.Name feed.Definition configID], some err)
    | none =>
      let r := insertFeeds configID feedErr (i + 1) rest
      (AdminQuery.insertFeed feed.Name feed.Definition configID :: r.1, r.2)

/-- `Insert` (controller.go:159): `body` is what `c.BodyParser` answers,
`dbAnswer` what the database answers to `InsertConfigQuery`. The result is the
list of queries sent, in order, and the error or the row written as response. -/
def Insert (body : GoError ⊕ ConfigInsertModel) (dbAnswer : GoError ⊕ ConfigModel)
    (feedErr : Nat → Option GoError) : List AdminQuery × (GoError ⊕ ConfigModel) :=
  match body with
  | Sum.inl err => ([], Sum.inl err)
  | Sum.inr parsed =>
    let config := setDefaultIntervals parsed
    let insert := AdminQuery.insertConfig config.Name config.FetchInterval
      config.AggregateInterval config.SubmitInterval
    match dbAnswer with
    | Sum.inl err => ([insert], Sum.inl err)
    | Sum.inr result =>
      let feeds := insertFeeds result.ID feedErr 0 config.Feeds
      match feeds.2 with
      | some err => (insert :: feeds.1, Sum.inl err)
      | none => (insert :: feeds.1, Sum.inr result)

/-- The map `loadedConfigMap` built by the first loop of `sync`
(controller.go:64-71): a later config of the same name replaces an earlier one. -/
def loadedConfigMap : List ConfigInsertModel → String → Option ConfigInsertModel
  | [], _ => none
  | config :: rest, name =>
    match loadedConfigMap rest name with
    | some later => some later
    | none => if config.Name = name then some config else none

/-- The list `removingConfigs` built by the loop over `dbConfigs` in `sync`
(controller.go:80-87): the decimal id (`strconv.Itoa`) of every database config
whose name is no key of `loadedConfigMap`. -/
def removingConfigs (loadedConfigs : List ConfigInsertModel) :
    List ConfigModel → List String
  | [] => []
  | dbConfig :: rest =>
    match loadedConfigMap loadedConfigs dbConfig.Name with
    | none => toString dbConfig.ID :: removingConfigs loadedConfigs rest
    | some _ => removingConfigs loadedConfigs rest

/-- The bulk delete of `sync` (controller.go:88-95): no query when
`removingConfigs` is empty, else the one `DELETE` over the joined ids. -/
def bulkDeleteConfigQuery (loadedConfigs : List ConfigInsertModel)
    (dbConfigs : List ConfigModel) : List AdminQuery :=
  let removing := removingConfigs loadedConfigs dbConfigs
  if removing.length > 0 then
    [AdminQuery.query ("DELETE FROM configs WHERE id IN (" ++ ",".intercalate removing ++ ")")]
  else []

/-- The constant `AGREEMENT_QUORUM = 0.5` (aggregator/types.go:17). -/
def AGREEMENT_QUORUM : ℚ := 0.5

/-- `validator` (dal/utils/utils.go:21): `apiKey` is `os.Getenv("API_KEY")`, `s`
the key of the request; the result is `valid` and the error text, if any. -/
def validator (apiKey : String) (s : String) : Bool × Option String :=
  if s = "" then (false, some "missing api key")
  else if s = apiKey then (true, none)
  else (false, some "invalid api key")

/-- `strings.ToLower` on a string of ASCII characters. -/
def lowerASCII (s : String) : String :=
  String.mk (s.data.map Char.toLower)

/-- `authFilter` (dal/utils/utils.go:34); `lower` is `strings.ToLower`. -/
def authFilter (lower : String → String) (originalURL : String) : Bool :=
  decide (lower originalURL = "/api/v1")

/-- What the key middleware decides for a request. -/
inductive Admission where
  | skipped
  | admitted (key : String)
  | refused (reason : String)
  deriving DecidableEq, Repr

/-- The handler that `keyauth.New` builds from the config of `Setup`
(dal/utils/utils.go:67-71; fiber's keyauth middleware): a request for which
`Next` answers `true` goes on without key check; else the key is read from the
header `X-API-Key` (`header` is `c.Get("X-API-Key")`, empty when the header is
absent), an empty one is refused as missing, and the others are admitted when
`Validator` answers `true` without error. -/
def keyauth (lower : String → String) (apiKey : String) (originalURL : String)
    (header : String) : Admission :=
  if authFilter lower originalURL then Admission.skipped
  else if header = "" then Admission.refused "missing or malformed API Key"
  else
    match validator apiKey header with
    | (true, none) => Admission.admitted header
    | (_, some err) => Admission.refused err
    | (false, none) => Admission.refused ""

/-- An error of the chain layer, with what `utils.ShouldRetryWithSwitchedJsonRPC`
answers for it (`retrySwitch`) and what `utils.IsNonceError(err) ||
utils.IsNonceAlreadyInPool(err)` answers (`nonce`). -/
structure ChainError where
  retrySwitch : Bool
  nonce : Bool
  detail : String
  deriving DecidableEq, Repr

/-- The fields of `ChainHelper` that the submission reads, with the answers of
the layers below it: `getNonce k` is the answer of the `k`-th call of
`noncemanager.GetAndIncrementNonce`, `makeTx client nonce` the answer of
`utils.MakeDirectTx` on a client, `submitRawTx client tx i` the answer of
`utils.SubmitRawTx` at the `i`-th turn of the retry loop (`tx = none` is the nil
transaction). Clients and transactions are named by numbers. -/
structure ChainHelper where
  clients : List Nat
  getNonce : Nat → ChainError ⊕ Nat
  makeTx : Nat → Nat → ChainError ⊕ Nat
  submitRawTx : Nat → Option Nat → Nat → Option ChainError

/-- `retryOnJsonRpcFailure` (chain/helper/helper.go:348). The job is a closure
over the variable `result` of its caller, so it takes and returns that variable
next to its error. -/
def retryOnJsonRpcFailure (job : Nat → Option Nat → Option ChainError × Option Nat) :
    List Nat → Option Nat → Option ChainError × Option Nat
  | [], result => (none, result)
  | client :: rest, result =>
    match job client result with
    | (some err, result1) =>
      if err.retrySwitch then retryOnJsonRpcFailure job rest result1
      else (some err, result1)
    | (none, result1) => (none, result1)

/-- `MakeDirectTx` (helper.go:155). `k` counts the calls of
`GetAndIncrementNonce` made before; the answer is `result`, `err` and the new
count. -/
def MakeDirectTx (t : ChainHelper) (k : Nat) : Option Nat × Option ChainError × Nat :=
  match t.getNonce k with
  | Sum.inl err => (none, some err, k + 1)
  | Sum.inr nonce =>
    let job : Nat → Option Nat → Option ChainError × Option Nat := fun c result =>
      match t.makeTx c nonce with
      | Sum.inr tmp => (none, some tmp)
      | Sum.inl err => (some err, result)
    let r := retryOnJsonRpcFailure job t.clients none
    (r.2, r.1, k + 1)

/-- One call of `utils.SubmitRawTx` as it is recorded: the client and whether
the call succeeded. -/
structure Submission where
  client : Nat
  ok : Bool
  deriving DecidableEq, Repr

/-- The loop `for i := 0; i < 3; i++` of `retrySubmitDirect` (helper.go:266-288)
from turn `3 - turns` on; `err` is the variable `err` of the function, returned
when the loop runs out. The answer is the error returned, the new count of
nonce calls and the submissions made. -/
def retrySubmitLoop (t : ChainHelper) (client : Nat) :
    Nat → Option Nat → Option ChainError → Nat → Option ChainError × Nat × List Submission
  | 0, _, err, k => (err, k, [])
  | turns + 1, tx, _, k =>
    match t.submitRawTx client tx (2 - turns) with
    | none => (none, k, [{ client := client, ok := true }])
    | some err =>
      if err.retrySwitch then (some err, k, [{ client := client, ok := false }])
      else if err.nonce then
        match MakeDirectTx t k with
        | (_, some err1, k1) => (some err1, k1, [{ client := client, ok := false }])
        | (tx1, none, k1) =>
          let r := retrySubmitLoop t client turns tx1 none k1
          (r.1, r.2.1, { client := client, ok := false } :: r.2.2)
      else (some err, k, [{ client := client, ok := false }])

/-- `retrySubmitDirect` (helper.go:264). -/
def retrySubmitDirect (t : ChainHelper) (client : Nat) (tx : Option Nat) (k : Nat) :
    Option ChainError × Nat × List Submission :=
  retrySubmitLoop t client 3 tx none k

/-- The loop over `t.clients` of `SubmitDirect` (helper.go:251-261); `outer` is
the variable `err` declared at the top of the function, which the `err` of the
loop body shadows and which is returned when the loop runs out. -/
def submitDirectLoop (t : ChainHelper) (tx : Option Nat) (outer : Option ChainError) :
    List Nat → Nat → Option ChainError × List Submission
  | [], _ => (outer, [])
  | client :: rest, k =>
    let r := retrySubmitDirect t client tx k
    match r.1 with
    | none => (none, r.2.2)
    | some err =>
      if err.retrySwitch then
        let r2 := submitDirectLoop t tx outer rest r.2.1
        (r2.1, r.2.2 ++ r2.2)
      else (some err, r.2.2)

/-- `SubmitDirect` (helper.go:243): the error returned and the submissions made. -/
def SubmitDirect (t : ChainHelper) : Option ChainError × List Submission :=
  match MakeDirectTx t 0 with
  | (_, some err, _) => (some err, [])
  | (tx, none, k) => submitDirectLoop t tx none t.clients k

/-! ## Facts about the median and the filter -/

theorem FindMedianInt64_eq_none_iff (l : List Int) : FindMedianInt64 l = none ↔ l = [] := by
  unfold FindMedianInt64
  simp only [List.getElem?_eq_none_iff, List.length_insertionSort]
  cases l with
  | nil => simp
  | cons a t =>
    simp only [List.length_cons, Nat.add_sub_cancel, reduceCtorEq, iff_false, not_le]
    exact Nat.lt_succ_of_le (Nat.div_le_self _ _)

theorem FindMedianInt64_singleton (v : Int) : FindMedianInt64 [v] = some v := by
  simp [FindMedianInt64]

theorem FindMedianInt64_perm {l₁ l₂ : List Int} (h : l₁.Perm l₂) :
    FindMedianInt64 l₁ = FindMedianInt64 l₂ := by
  have hs : l₁.insertionSort (fun a b => a ≤ b) = l₂.insertionSort (fun a b => a ≤ b) := by
    apply List.eq_of_perm_of_sorted _ (List.sorted_insertionSort _ _)
      (List.sorted_insertionSort _ _)
    exact ((List.perm_insertionSort _ l₁).trans h).trans (List.perm_insertionSort _ l₂).symm
  unfold FindMedianInt64
  rw [hs]

theorem FilterNegative_eq_nil_iff (l : List Int) : FilterNegative l = [] ↔ ∀ x ∈ l, x < 0 := by
  simp [FilterNegative, List.filter_eq_nil_iff]

theorem FilterNegative_perm {l₁ l₂ : List Int} (h : l₁.Perm l₂) :
    (FilterNegative l₁).Perm (FilterNegative l₂) :=
  h.filter _

/-! ## One call of `HandlePriceDataMessage` -/

theorem HandlePriceDataMessage_below (p : Nat) (dbErr : Option GoError) (n : AggregatorNode)
    (msg : Message) (d : PriceDataMessage) (hd : msg.Data.asPriceData = Sum.inr d)
    (hlt : (collectedAfter n d.RoundID d.PriceData).length < p + 1) :
    HandlePriceDataMessage p dbErr n msg =
      { node :=
          { n with
            CollectedPrices :=
              mapSet n.CollectedPrices d.RoundID (collectedAfter n d.RoundID d.PriceData) }
        effects := []
        ret := Return.nil } := by
  unfold collectedAfter at hlt
  simp only [HandlePriceDataMessage, hd, collectedAfter, ge_iff_le]
  rw [if_neg (by omega)]

theorem HandlePriceDataMessage_undefined (p : Nat) (dbErr : Option GoError) (n : AggregatorNode)
    (msg : Message) (d : PriceDataMessage) (hd : msg.Data.asPriceData = Sum.inr d)
    (hge : p + 1 ≤ (collectedAfter n d.RoundID d.PriceData).length)
    (hm : FindMedianInt64 (FilterNegative (collectedAfter n d.RoundID d.PriceData)) = none) :
    HandlePriceDataMessage p dbErr n msg =
      { node :=
          { n with
            CollectedPrices :=
              mapSet n.CollectedPrices d.RoundID (collectedAfter n d.RoundID d.PriceData) }
        effects := []
        ret := Return.aborted } := by
  unfold collectedAfter at hge hm
  simp only [HandlePriceDataMessage, hd, collectedAfter, ge_iff_le]
  rw [if_pos hge]
  simp only [hm]

theorem HandlePriceDataMessage_quorum_ok (p : Nat) (n : AggregatorNode)
    (msg : Message) (d : PriceDataMessage) (median : Int)
    (hd : msg.Data.asPriceData = Sum.inr d)
    (hge : p + 1 ≤ (collectedAfter n d.RoundID d.PriceData).length)
    (hm : FindMedianInt64 (FilterNegative (collectedAfter n d.RoundID d.PriceData)) = some median) :
    HandlePriceDataMessage p none n msg =
      { node :=
          { n with
            CollectedPrices :=
              mapDelete
                (mapSet n.CollectedPrices d.RoundID (collectedAfter n d.RoundID d.PriceData))
                d.RoundID }
        effects := [Effect.insertGlobalAggregate n.Name median d.RoundID]
        ret := Return.nil } := by
  unfold collectedAfter at hge hm
  simp only [HandlePriceDataMessage, hd, collectedAfter, ge_iff_le]
  rw [if_pos hge]
  simp only [hm]

theorem HandlePriceDataMessage_quorum_dbErr (p : Nat) (e : GoError) (n : AggregatorNode)
    (msg : Message) (d : PriceDataMessage) (median : Int)
    (hd : msg.Data.asPriceData = Sum.inr d)
    (hge : p + 1 ≤ (collectedAfter n d.RoundID d.PriceData).length)
    (hm : FindMedianInt64 (FilterNegative (collectedAfter n d.RoundID d.PriceData)) = some median) :
    HandlePriceDataMessage p (some e) n msg =
      { node :=
          { n with
            CollectedPrices :=
              mapSet n.CollectedPrices d.RoundID (collectedAfter n d.RoundID d.PriceData) }
        effects := [Effect.insertGlobalAggregate n.Name median d.RoundID]
        ret := Return.err e } := by
  unfold collectedAfter at hge hm
  simp only [HandlePriceDataMessage, hd, collectedAfter, ge_iff_le]
  rw [if_pos hge]
  simp only [hm]

theorem HandlePriceDataMessage_decode_error (p : Nat) (dbErr : Option GoError)
    (n : AggregatorNode) (msg : Message) (e : GoError)
    (hd : msg.Data.asPriceData = Sum.inl e) :
    HandlePriceDataMessage p dbErr n msg = { node := n, effects := [], ret := Return.err e } := by
  simp only [HandlePriceDataMessage, hd]

/-- The effects of a call in the quorum branch with a defined median, whatever
the database answers. -/
theorem HandlePriceDataMessage_quorum_effects (p : Nat) (dbErr : Option GoError)
    (n : AggregatorNode) (msg : Message) (d : PriceDataMessage) (median : Int)
    (hd : msg.Data.asPriceData = Sum.inr d)
    (hge : p + 1 ≤ (collectedAfter n d.RoundID d.PriceData).length)
    (hm : FindMedianInt64 (FilterNegative (collectedAfter n d.RoundID d.PriceData)) = some median) :
    (HandlePriceDataMessage p dbErr n msg).effects =
      [Effect.insertGlobalAggregate n.Name median d.RoundID] := by
  cases dbErr with
  | none => rw [HandlePriceDataMessage_quorum_ok p n msg d median hd hge hm]
  | some e => rw [HandlePriceDataMessage_quorum_dbErr p e n msg d median hd hge hm]

/-- A call either has no effect or exactly one, an insert for the round of the
frame with the median of the filtered collected prices. -/
theorem HandlePriceDataMessage_effects_cases (p : Nat) (dbErr : Option GoError)
    (n : AggregatorNode) (msg : Message) (d : PriceDataMessage)
    (hd : msg.Data.asPriceData = Sum.inr d) :
    (HandlePriceDataMessage p dbErr n msg).effects = [] ∨
    ∃ median, p + 1 ≤ (collectedAfter n d.RoundID d.PriceData).length ∧
      FindMedianInt64 (FilterNegative (collectedAfter n d.RoundID d.PriceData)) = some median ∧
      (HandlePriceDataMessage p dbErr n msg).effects =
        [Effect.insertGlobalAggregate n.Name median d.RoundID] := by
  by_cases hge : p + 1 ≤ (collectedAfter n d.RoundID d.PriceData).length
  · cases hm : FindMedianInt64 (FilterNegative (collectedAfter n d.RoundID d.PriceData)) with
    | none =>
      left
      rw [HandlePriceDataMessage_undefined p dbErr n msg d hd hge hm]
    | some median =>
      right
      exact ⟨median, hge, rfl, HandlePriceDataMessage_quorum_effects p dbErr n msg d median hd hge hm⟩
  · left
    rw [HandlePriceDataMessage_below p dbErr n msg d hd (by omega)]

/-! ## Sequences of frames -/

theorem insertsFor_append (r : Int) (es₁ es₂ : List Effect) :
    insertsFor r (es₁ ++ es₂) = insertsFor r es₁ ++ insertsFor r es₂ := by
  induction es₁ with
  | nil => rfl
  | cons e es ih =>
    cases e with
    | publish m => simpa [insertsFor] using ih
    | insertGlobalAggregate name value round =>
      by_cases h : round = r <;> simp [insertsFor, h, ih]

theorem pricesFor_eq_filterMap (r : Int) (calls : List (Option GoError × Message)) :
    pricesFor r calls = calls.filterMap (fun c =>
      match c.2.Data.asPriceData with
      | Sum.inr d => if d.RoundID = r then some d.PriceData else none
      | Sum.inl _ => none) := by
  induction calls with
  | nil => rfl
  | cons c cs ih =>
    cases hd : c.2.Data.asPriceData with
    | inl e => simp [pricesFor, List.filterMap_cons, hd, ih]
    | inr d => by_cases h : d.RoundID = r <;> simp [pricesFor, List.filterMap_cons, hd, h, ih]

theorem pricesFor_perm (r : Int) {calls₁ calls₂ : List (Option GoError × Message)}
    (h : calls₁.Perm calls₂) : (pricesFor r calls₁).Perm (pricesFor r calls₂) := by
  rw [pricesFor_eq_filterMap, pricesFor_eq_filterMap]
  exact h.filterMap _

/-- A call touches the collected prices of the round of its frame only. -/
theorem HandlePriceDataMessage_other_round (p : Nat) (dbErr : Option GoError)
    (n : AggregatorNode) (msg : Message) (d : PriceDataMessage) (r : Int)
    (hd : msg.Data.asPriceData = Sum.inr d) (hr : d.RoundID ≠ r) :
    (HandlePriceDataMessage p dbErr n msg).node.CollectedPrices r = n.CollectedPrices r ∧
    insertsFor r (HandlePriceDataMessage p dbErr n msg).effects = [] := by
  have hr' : ¬ r = d.RoundID := fun h => hr h.symm
  by_cases hge : p + 1 ≤ (collectedAfter n d.RoundID d.PriceData).length
  · cases hm : FindMedianInt64 (FilterNegative (collectedAfter n d.RoundID d.PriceData)) with
    | none =>
      rw [HandlePriceDataMessage_undefined p dbErr n msg d hd hge hm]
      simp [mapSet, hr', insertsFor]
    | some median =>
      cases dbErr with
      | none =>
        rw [HandlePriceDataMessage_quorum_ok p n msg d median hd hge hm]
        simp [mapSet, mapDelete, hr', hr, insertsFor]
      | some e =>
        rw [HandlePriceDataMessage_quorum_dbErr p e n msg d median hd hge hm]
        simp [mapSet, hr', hr, insertsFor]
  · rw [HandlePriceDataMessage_below p dbErr n msg d hd (by omega)]
    simp [mapSet, hr', insertsFor]

/-- The call that reaches the threshold: what it inserts for the round and how
many prices stay collected. -/
theorem HandlePriceDataMessage_at_quorum (p : Nat) (dbErr : Option GoError)
    (n : AggregatorNode) (msg : Message) (d : PriceDataMessage)
    (hd : msg.Data.asPriceData = Sum.inr d)
    (hge : p + 1 ≤ (collectedAfter n d.RoundID d.PriceData).length) :
    insertsFor d.RoundID (HandlePriceDataMessage p dbErr n msg).effects =
      (FindMedianInt64 (FilterNegative (collectedAfter n d.RoundID d.PriceData))).toList ∧
    (((HandlePriceDataMessage p dbErr n msg).node.CollectedPrices d.RoundID).getD []).length ≤
      (collectedAfter n d.RoundID d.PriceData).length := by
  cases hm : FindMedianInt64 (FilterNegative (collectedAfter n d.RoundID d.PriceData)) with
  | none =>
    rw [HandlePriceDataMessage_undefined p dbErr n msg d hd hge hm]
    simp [mapSet, insertsFor]
  | some median =>
    cases dbErr with
    | none =>
      rw [HandlePriceDataMessage_quorum_ok p n msg d median hd hge hm]
      simp [mapDelete, insertsFor]
    | some e =>
      rw [HandlePriceDataMessage_quorum_dbErr p e n msg d median hd hge hm]
      simp [mapSet, insertsFor]

/-- While the prices already collected for `r` and the frames for `r` together
do not exceed `p + 1`, the only insert for `r` is made by the frame that brings
the count to `p + 1`, with the median of all of them. -/
theorem feed_inserts_of_le (p : Nat) (r : Int) :
    ∀ (calls : List (Option GoError × Message)) (n : AggregatorNode),
      ((n.CollectedPrices r).getD []).length + (pricesFor r calls).length ≤ p + 1 →
      insertsFor r (feed p n calls).2 =
        if pricesFor r calls ≠ [] ∧
            ((n.CollectedPrices r).getD []).length + (pricesFor r calls).length = p + 1 then
          (FindMedianInt64 (FilterNegative
            ((n.CollectedPrices r).getD [] ++ pricesFor r calls))).toList
        else [] := by
  intro calls
  induction calls with
  | nil => intro n _; simp [feed, insertsFor, pricesFor]
  | cons c cs ih =>
    intro n hle
    cases hd : c.2.Data.asPriceData with
    | inl e =>
      have hp : pricesFor r (c :: cs) = pricesFor r cs := by simp [pricesFor, hd]
      rw [hp] at hle ⊢
      simp only [feed, HandlePriceDataMessage_decode_error p c.1 n c.2 e hd, List.nil_append]
      exact ih n hle
    | inr d =>
      by_cases hr : d.RoundID = r
      · subst hr
        have hp : pricesFor d.RoundID (c :: cs) = d.PriceData :: pricesFor d.RoundID cs := by
          simp [pricesFor, hd]
        rw [hp] at hle ⊢
        simp only [List.length_cons] at hle
        have hlen : (collectedAfter n d.RoundID d.PriceData).length =
            ((n.CollectedPrices d.RoundID).getD []).length + 1 := by
          simp [collectedAfter]
        simp only [feed, insertsFor_append]
        by_cases hlt : (collectedAfter n d.RoundID d.PriceData).length < p + 1
        · have hb := HandlePriceDataMessage_below p c.1 n c.2 d hd hlt
          have hnode : (HandlePriceDataMessage p c.1 n c.2).node.CollectedPrices d.RoundID =
              some (collectedAfter n d.RoundID d.PriceData) := by
            rw [hb]; simp [mapSet]
          have heff : (HandlePriceDataMessage p c.1 n c.2).effects = [] := by rw [hb]
          rw [heff, ih _ (by rw [hnode, Option.getD_some, hlen]; omega), hnode,
            Option.getD_some, hlen]
          simp only [insertsFor, List.nil_append, collectedAfter, List.append_assoc,
            List.singleton_append, List.length_cons, ne_eq, reduceCtorEq, not_false_eq_true,
            true_and]
          by_cases hpc : pricesFor d.RoundID cs = []
          · rw [hpc] at hle ⊢
            simp only [List.length_nil] at hle ⊢
            rw [if_neg (by simp), if_neg (by omega)]
          · have e1 : ((n.CollectedPrices d.RoundID).getD []).length + 1 +
                (pricesFor d.RoundID cs).length = p + 1 ↔
                ((n.CollectedPrices d.RoundID).getD []).length +
                ((pricesFor d.RoundID cs).length + 1) = p + 1 := by omega
            simp only [hpc, not_false_eq_true, true_and, e1]
        · have hq := HandlePriceDataMessage_at_quorum p c.1 n c.2 d hd (by omega)
          have hpc : pricesFor d.RoundID cs = [] := by
            apply List.length_eq_zero.mp
            omega
          rw [hq.1, ih _ (by rw [hpc]; simp only [List.length_nil]; omega), hpc]
          simp only [ne_eq, not_true_eq_false, false_and, if_false, List.append_nil,
            List.length_cons, List.length_nil, reduceCtorEq, not_false_eq_true, true_and]
          rw [if_pos (by omega)]
          rfl
      · have hp : pricesFor r (c :: cs) = pricesFor r cs := by simp [pricesFor, hd, hr]
        obtain ⟨hnode, hins⟩ := HandlePriceDataMessage_other_round p c.1 n c.2 d r hd hr
        rw [hp] at hle ⊢
        simp only [feed, insertsFor_append, hins, List.nil_append]
        rw [ih _ (by rw [hnode]; exact hle), hnode]

/-- With every insert accepted, each insert for `r` uses up `p + 1` of the prices
received for `r`. -/
theorem feed_inserts_budget (p : Nat) (r : Int) :
    ∀ (calls : List (Option GoError × Message)) (n : AggregatorNode),
      (∀ c ∈ calls, c.1 = none) →
      (insertsFor r (feed p n calls).2).length * (p + 1) +
          (((feed p n calls).1.CollectedPrices r).getD []).length ≤
        ((n.CollectedPrices r).getD []).length + (pricesFor r calls).length := by
  intro calls
  induction calls with
  | nil => intro n _; simp [feed, insertsFor, pricesFor]
  | cons c cs ih =>
    intro n hok
    have hc : c.1 = none := hok c (List.mem_cons_self _ _)
    have hcs : ∀ c' ∈ cs, c'.1 = none := fun c' h => hok c' (List.mem_cons_of_mem _ h)
    cases hd : c.2.Data.asPriceData with
    | inl e =>
      have hp : pricesFor r (c :: cs) = pricesFor r cs := by simp [pricesFor, hd]
      rw [hp]
      simp only [feed, HandlePriceDataMessage_decode_error p c.1 n c.2 e hd, List.nil_append]
      exact ih n hcs
    | inr d =>
      by_cases hr : d.RoundID = r
      · subst hr
        have hp : pricesFor d.RoundID (c :: cs) = d.PriceData :: pricesFor d.RoundID cs := by
          simp [pricesFor, hd]
        have hlen : (collectedAfter n d.RoundID d.PriceData).length =
            ((n.CollectedPrices d.RoundID).getD []).length + 1 := by
          simp [collectedAfter]
        rw [hp]
        simp only [feed, insertsFor_append, List.length_append, List.length_cons]
        have hih := ih (HandlePriceDataMessage p c.1 n c.2).node hcs
        by_cases hge : p + 1 ≤ (collectedAfter n d.RoundID d.PriceData).length
        · cases hm : FindMedianInt64
              (FilterNegative (collectedAfter n d.RoundID d.PriceData)) with
          | none =>
            have hb := HandlePriceDataMessage_undefined p c.1 n c.2 d hd hge hm
            have hnode : (HandlePriceDataMessage p c.1 n c.2).node.CollectedPrices d.RoundID =
                some (collectedAfter n d.RoundID d.PriceData) := by
              rw [hb]; simp [mapSet]
            have heff : (HandlePriceDataMessage p c.1 n c.2).effects = [] := by rw [hb]
            rw [hnode, Option.getD_some, hlen] at hih
            rw [heff]
            simp only [insertsFor, List.length_nil, Nat.zero_add]
            omega
          | some median =>
            rw [hc] at hih ⊢
            have hb := HandlePriceDataMessage_quorum_ok p n c.2 d median hd hge hm
            have hnode : (HandlePriceDataMessage p none n c.2).node.CollectedPrices d.RoundID =
                none := by
              rw [hb]; simp [mapDelete]
            have heff : insertsFor d.RoundID (HandlePriceDataMessage p none n c.2).effects =
                [median] := by
              rw [hb]; simp [insertsFor]
            rw [hnode] at hih
            simp only [Option.getD_none, List.length_nil, Nat.zero_add] at hih
            rw [heff]
            simp only [List.length_singleton, Nat.add_mul, Nat.one_mul]
            omega
        · have hb := HandlePriceDataMessage_below p c.1 n c.2 d hd (by omega)
          have hnode : (HandlePriceDataMessage p c.1 n c.2).node.CollectedPrices d.RoundID =
              some (collectedAfter n d.RoundID d.PriceData) := by
            rw [hb]; simp [mapSet]
          have heff : (HandlePriceDataMessage p c.1 n c.2).effects = [] := by rw [hb]
          rw [hnode, Option.getD_some, hlen] at hih
          rw [heff]
          simp only [insertsFor, List.length_nil, Nat.zero_add]
          omega
      · have hp : pricesFor r (c :: cs) = pricesFor r cs := by simp [pricesFor, hd, hr]
        obtain ⟨hnode, hins⟩ := HandlePriceDataMessage_other_round p c.1 n c.2 d r hd hr
        have hih := ih (HandlePriceDataMessage p c.1 n c.2).node hcs
        rw [hnode] at hih
        rw [hp]
        simp only [feed, insertsFor_append, hins, List.nil_append]
        exact hih

/-! ## `LeaderJob` and the width of `RoundID` -/

theorem wrapSigned_of_inRange (w : Nat) (hw : 0 < w) (x : Int)
    (hlo : -(2 : Int) ^ (w - 1) ≤ x) (hhi : x < 2 ^ (w - 1)) : wrapSigned w x = x := by
  have h2 : (2 : Int) ^ w = 2 * 2 ^ (w - 1) := by
    obtain ⟨k, rfl⟩ : ∃ k, w = k + 1 := ⟨w - 1, by omega⟩
    simp [pow_succ, mul_comm]
  unfold wrapSigned
  rw [h2]
  generalize (2 : Int) ^ (w - 1) = P at *
  rw [Int.emod_eq_of_lt (by omega) (by omega)]
  omega

theorem triggerRounds_LeaderJob (w : Nat) (pubErr : Option GoError) (n : AggregatorNode)
    (es : List Effect) :
    triggerRounds ((LeaderJob w pubErr n).effects ++ es) =
      wrapSigned w (n.RoundID + 1) :: triggerRounds es := by
  simp [LeaderJob, triggerRounds, marshalRoundSync]

/-! ## One call of `HandleRoundSyncMessage` -/

theorem HandleRoundSyncMessage_decode_error (rdb pgs : GoError ⊕ LocalAggregate)
    (pubErr : Option GoError) (n : AggregatorNode) (msg : Message) (e : GoError)
    (hd : msg.Data.asRoundSync = Sum.inl e) :
    HandleRoundSyncMessage rdb pgs pubErr n msg =
      { node := n, effects := [], ret := Return.err e } := by
  simp only [HandleRoundSyncMessage, hd]

theorem HandleRoundSyncMessage_lookup_error (rdb pgs : GoError ⊕ LocalAggregate)
    (pubErr : Option GoError) (n : AggregatorNode) (msg : Message) (d : RoundSyncMessage)
    (e : GoError) (hd : msg.Data.asRoundSync = Sum.inr d)
    (hl : getLatestLocalAggregate rdb pgs = Sum.inl e) :
    HandleRoundSyncMessage rdb pgs pubErr n msg =
      { node := { n with RoundID := d.RoundID }, effects := [], ret := Return.err e } := by
  simp only [HandleRoundSyncMessage, hd, hl]

theorem HandleRoundSyncMessage_stale (rdb pgs : GoError ⊕ LocalAggregate)
    (pubErr : Option GoError) (n : AggregatorNode) (msg : Message) (d : RoundSyncMessage)
    (v t : Int) (hd : msg.Data.asRoundSync = Sum.inr d)
    (hl : getLatestLocalAggregate rdb pgs = Sum.inr (v, t))
    (h0 : n.LastLocalAggregateTime ≠ 0) (ht : n.LastLocalAggregateTime = t) :
    HandleRoundSyncMessage rdb pgs pubErr n msg =
      { node := { n with RoundID := d.RoundID }
        effects := [Effect.publish (priceFrame n.HostID d.RoundID (-1))]
        ret := Return.ofError pubErr } := by
  subst ht
  simp [HandleRoundSyncMessage, hd, hl, h0, priceFrame]

theorem HandleRoundSyncMessage_fresh (rdb pgs : GoError ⊕ LocalAggregate)
    (pubErr : Option GoError) (n : AggregatorNode) (msg : Message) (d : RoundSyncMessage)
    (v t : Int) (hd : msg.Data.asRoundSync = Sum.inr d)
    (hl : getLatestLocalAggregate rdb pgs = Sum.inr (v, t))
    (h : n.LastLocalAggregateTime = 0 ∨ n.LastLocalAggregateTime ≠ t) :
    HandleRoundSyncMessage rdb pgs pubErr n msg =
      { node := { n with RoundID := d.RoundID, LastLocalAggregateTime := t }
        effects := [Effect.publish (priceFrame n.HostID d.RoundID v)]
        ret := Return.ofError pubErr } := by
  have hs : ¬ (¬ n.LastLocalAggregateTime = 0 ∧ n.LastLocalAggregateTime = t) := by
    rintro ⟨h1, h2⟩
    rcases h with h | h
    · exact h1 h
    · exact h h2
  simp [HandleRoundSyncMessage, hd, hl, hs, priceFrame]

/-! ## Round state and the store of local aggregates -/

theorem senderLoop_eq_true_iff (sender : String) (l : List String) :
    senderLoop sender l = true ↔ sender ∈ l := by
  induction l with
  | nil => simp [senderLoop]
  | cons s rest ih =>
    by_cases h : s = sender
    · simp [senderLoop, h]
    · have h' : ¬ sender = s := fun e => h e.symm
      simp [senderLoop, h, h', ih]

theorem RoundState.absent_cleanup_self (s : RoundState) (r : Int) : (s.cleanup r).absent r := by
  simp [RoundState.absent, RoundState.cleanup, RoundTriggers.cleanup, RoundPrices.cleanup,
    RoundProofs.cleanup, mapDelete]

theorem RoundState.absent_cleanup_of_absent (s : RoundState) (r r' : Int) (h : s.absent r) :
    (s.cleanup r').absent r := by
  obtain ⟨h1, h2, h3, h4, h5, h6, h7⟩ := h
  simp [RoundState.absent, RoundState.cleanup, RoundTriggers.cleanup, RoundPrices.cleanup,
    RoundProofs.cleanup, mapDelete, h1, h2, h3, h4, h5, h6, h7]

theorem RoundState.absent_cleanupAll_of_absent (rounds : List Int) :
    ∀ (s : RoundState) (r : Int), s.absent r → (s.cleanupAll rounds).absent r := by
  induction rounds with
  | nil => intro s r h; exact h
  | cons r' rs ih =>
    intro s r h
    exact ih (s.cleanup r') r (RoundState.absent_cleanup_of_absent s r r' h)

theorem RoundState.absent_cleanupAll_of_mem (rounds : List Int) :
    ∀ (s : RoundState) (r : Int), r ∈ rounds → (s.cleanupAll rounds).absent r := by
  induction rounds with
  | nil => intro s r h; simp at h
  | cons r' rs ih =>
    intro s r h
    rcases List.mem_cons.mp h with h | h
    · subst h
      exact RoundState.absent_cleanupAll_of_absent rs _ r (RoundState.absent_cleanup_self s r)
    · exact ih (s.cleanup r') r h

theorem mem_roundsBetween (lo hi r : Int) : r ∈ roundsBetween lo hi ↔ lo ≤ r ∧ r ≤ hi := by
  simp only [roundsBetween, List.mem_map, List.mem_range]
  constructor
  · rintro ⟨i, hi', rfl⟩
    omega
  · rintro ⟨h1, h2⟩
    exact ⟨(r - lo).toNat, by omega, by omega⟩

theorem LatestLocalAggregates.Load_storeAll_of_not_mem (ops : List (Int × LocalAggregate)) :
    ∀ (a : LatestLocalAggregates) (id : Int), (∀ op ∈ ops, op.1 ≠ id) →
      (a.storeAll ops).Load id = a.Load id := by
  induction ops with
  | nil => intro a id _; rfl
  | cons op ops ih =>
    intro a id h
    have h1 : op.1 ≠ id := h op (List.mem_cons_self _ _)
    have h1' : ¬ id = op.1 := fun e => h1 e.symm
    rw [LatestLocalAggregates.storeAll, ih _ id (fun o ho => h o (List.mem_cons_of_mem _ ho))]
    simp [LatestLocalAggregates.Load, LatestLocalAggregates.Store, mapSet, h1']

/-! ## The admin config controller -/

theorem setDefaultIntervals_AggregateInterval (c : ConfigInsertModel) :
    (setDefaultIntervals c).AggregateInterval =
      if nilOrZero c.AggregateInterval then some 3000 else c.AggregateInterval := by
  unfold setDefaultIntervals
  by_cases h1 : nilOrZero c.FetchInterval = true <;>
    by_cases h2 : nilOrZero c.AggregateInterval = true <;>
    by_cases h3 : nilOrZero c.SubmitInterval = true <;> simp [h1, h2, h3]

theorem setDefaultIntervals_FetchInterval (c : ConfigInsertModel) :
    (setDefaultIntervals c).FetchInterval =
      if nilOrZero c.FetchInterval then some 2000 else c.FetchInterval := by
  unfold setDefaultIntervals
  by_cases h1 : nilOrZero c.FetchInterval = true <;>
    by_cases h2 : nilOrZero c.AggregateInterval = true <;>
    by_cases h3 : nilOrZero c.SubmitInterval = true <;> simp [h1, h2, h3]

theorem setDefaultIntervals_SubmitInterval (c : ConfigInsertModel) :
    (setDefaultIntervals c).SubmitInterval =
      if nilOrZero c.SubmitInterval then some 15000 else c.SubmitInterval := by
  unfold setDefaultIntervals
  by_cases h1 : nilOrZero c.FetchInterval = true <;>
    by_cases h2 : nilOrZero c.AggregateInterval = true <;>
    by_cases h3 : nilOrZero c.SubmitInterval = true <;> simp [h1, h2, h3]

theorem setDefaultIntervals_Name (c : ConfigInsertModel) :
    (setDefaultIntervals c).Name = c.Name := by
  unfold setDefaultIntervals
  by_cases h1 : nilOrZero c.FetchInterval = true <;>
    by_cases h2 : nilOrZero c.AggregateInterval = true <;>
    by_cases h3 : nilOrZero c.SubmitInterval = true <;> simp [h1, h2, h3]

theorem setDefaultIntervals_Feeds (c : ConfigInsertModel) :
    (setDefaultIntervals c).Feeds = c.Feeds := by
  unfold setDefaultIntervals
  by_cases h1 : nilOrZero c.FetchInterval = true <;>
    by_cases h2 : nilOrZero c.AggregateInterval = true <;>
    by_cases h3 : nilOrZero c.SubmitInterval = true <;> simp [h1, h2, h3]

theorem nilOrZero_default (d : Int) (o : Option Int) :
    (if nilOrZero o then some d else o) =
      some (match o with
        | none => d
        | some v => if v = 0 then d else v) := by
  cases o with
  | none => simp [nilOrZero]
  | some v => by_cases hv : v = 0 <;> simp [nilOrZero, hv]

theorem loadedConfigMap_eq_none_iff (loadedConfigs : List ConfigInsertModel) (name : String) :
    loadedConfigMap loadedConfigs name = none ↔
      name ∉ loadedConfigs.map (fun c => c.Name) := by
  induction loadedConfigs with
  | nil => simp [loadedConfigMap]
  | cons config rest ih =>
    cases h : loadedConfigMap rest name with
    | some later =>
      have hmem : ¬ name ∉ rest.map (fun c => c.Name) := fun hn => by
        rw [ih.mpr hn] at h
        exact absurd h (by simp)
      simp only [loadedConfigMap, h, List.map_cons, List.mem_cons, not_or]
      constructor
      · intro h'
        exact absurd h' (by simp)
      · rintro ⟨_, hn⟩
        exact absurd hn hmem
    | none =>
      have hn := ih.mp h
      by_cases hc : config.Name = name
      · simp [loadedConfigMap, h, hc]
      · have hc' : ¬ name = config.Name := fun e => hc e.symm
        simp only [loadedConfigMap, h, hc, if_false, List.map_cons, List.mem_cons, not_or,
          true_iff]
        exact ⟨hc', hn⟩

theorem removingConfigs_eq_filter (loadedConfigs : List ConfigInsertModel)
    (dbConfigs : List ConfigModel) :
    removingConfigs loadedConfigs dbConfigs =
      (dbConfigs.filter
        (fun d => decide (d.Name ∉ loadedConfigs.map (fun c => c.Name)))).map
        (fun d => toString d.ID) := by
  induction dbConfigs with
  | nil => rfl
  | cons dbConfig rest ih =>
    by_cases hmem : dbConfig.Name ∉ loadedConfigs.map (fun c => c.Name)
    · have hnone := (loadedConfigMap_eq_none_iff loadedConfigs dbConfig.Name).mpr hmem
      simp only [removingConfigs, hnone, List.filter_cons, hmem, not_false_eq_true,
        decide_True, if_true, List.map_cons, ih]
    · have hsome : ∃ c, loadedConfigMap loadedConfigs dbConfig.Name = some c := by
        cases h : loadedConfigMap loadedConfigs dbConfig.Name with
        | none => exact absurd ((loadedConfigMap_eq_none_iff _ _).mp h) hmem
        | some c => exact ⟨c, rfl⟩
      obtain ⟨c, hc⟩ := hsome
      simp only [removingConfigs, hc, List.filter_cons, hmem, decide_False, ih]
      simp

/-! ## The claims -/

/-- C1, refuted as stated: on a node without peers, two frames for round 1
(every insert accepted) make the node call `insertGlobalAggregate` twice for
round 1, once with `10` and once with `20`. -/
theorem feed_inserts_twice :
    insertsFor 1 (feed 0 (freshNode "btc" "N1")
      [(none, priceFrame "N1" 1 10), (none, priceFrame "N2" 1 20)]).2 = [10, 20] ∧
    ¬ (insertsFor 1 (feed 0 (freshNode "btc" "N1")
      [(none, priceFrame "N1" 1 10), (none, priceFrame "N2" 1 20)]).2).length ≤ 1 := by
  decide

/-- C1, amended: for every sequence of frames handled with `p` peers and every
insert accepted, the number of `insertGlobalAggregate` calls for a round `r` is
at most `(c + m) / (p + 1)`, `c` being the number of prices collected for `r`
at the start and `m` the number of frames that carry `r`; it is at most one
when `c + m < 2 * (p + 1)`. -/
theorem feed_inserts_at_most (p : Nat) (r : Int) (calls : List (Option GoError × Message))
    (n : AggregatorNode) (hok : ∀ c ∈ calls, c.1 = none) :
    (insertsFor r (feed p n calls).2).length ≤
      (((n.CollectedPrices r).getD []).length + (pricesFor r calls).length) / (p + 1) ∧
    (((n.CollectedPrices r).getD []).length + (pricesFor r calls).length < 2 * (p + 1) →
      (insertsFor r (feed p n calls).2).length ≤ 1) := by
  have hb := feed_inserts_budget p r calls n hok
  have h1 : (insertsFor r (feed p n calls).2).length * (p + 1) ≤
      ((n.CollectedPrices r).getD []).length + (pricesFor r calls).length :=
    le_trans (Nat.le_add_right _ _) hb
  refine ⟨(Nat.le_div_iff_mul_le (Nat.succ_pos p)).mpr h1, ?_⟩
  intro hlt
  by_contra hgt
  have h2 : 2 ≤ (insertsFor r (feed p n calls).2).length := by omega
  have h3 : 2 * (p + 1) ≤ (insertsFor r (feed p n calls).2).length * (p + 1) :=
    Nat.mul_le_mul_right _ h2
  omega

/-- C1, amended, at an input: two peers, three frames for round 1 and one for
round 2: one insert for round 1. -/
theorem feed_inserts_at_most_witness :
    (insertsFor 1 (feed 2 (freshNode "btc" "N1")
        [(none, priceFrame "N1" 1 100), (none, priceFrame "N2" 1 104),
          (none, priceFrame "N1" 2 7), (none, priceFrame "N3" 1 110)]).2).length ≤
      ((((freshNode "btc" "N1").CollectedPrices 1).getD []).length +
        (pricesFor 1 [(none, priceFrame "N1" 1 100), (none, priceFrame "N2" 1 104),
          (none, priceFrame "N1" 2 7), (none, priceFrame "N3" 1 110)]).length) / (2 + 1) ∧
    insertsFor 1 (feed 2 (freshNode "btc" "N1")
        [(none, priceFrame "N1" 1 100), (none, priceFrame "N2" 1 104),
          (none, priceFrame "N1" 2 7), (none, priceFrame "N3" 1 110)]).2 = [104] :=
  ⟨(feed_inserts_at_most 2 1
      [(none, priceFrame "N1" 1 100), (none, priceFrame "N2" 1 104),
        (none, priceFrame "N1" 2 7), (none, priceFrame "N3" 1 110)]
      (freshNode "btc" "N1") (by decide)).1, by decide⟩

/-- C2: whenever `HandlePriceDataMessage` calls `insertGlobalAggregate`, the
frame decoded, the row is for the round of the frame and under the name of the
node, the quorum test passed, and the value is the lower-middle element of the
ascending rearrangement of the non-negative prices collected for that round (the
incoming one included): the element at index `(k - 1) / 2` of the sorted list of
the `k` prices that are left once the negative ones are removed. -/
theorem HandlePriceDataMessage_writes_median (p : Nat) (dbErr : Option GoError)
    (n : AggregatorNode) (msg : Message) (name : String) (value round : Int)
    (h : Effect.insertGlobalAggregate name value round ∈
      (HandlePriceDataMessage p dbErr n msg).effects) :
    ∃ d, msg.Data.asPriceData = Sum.inr d ∧ round = d.RoundID ∧ name = n.Name ∧
      p + 1 ≤ (collectedAfter n d.RoundID d.PriceData).length ∧
      FindMedianInt64 (FilterNegative (collectedAfter n d.RoundID d.PriceData)) = some value ∧
      ∃ sorted : List Int, sorted.Sorted (fun a b => a ≤ b) ∧
        sorted.Perm ((collectedAfter n d.RoundID d.PriceData).filter (fun x => decide (0 ≤ x))) ∧
        sorted[(sorted.length - 1) / 2]? = some value := by
  cases hd : msg.Data.asPriceData with
  | inl e =>
    rw [HandlePriceDataMessage_decode_error p dbErr n msg e hd] at h
    simp at h
  | inr d =>
    rcases HandlePriceDataMessage_effects_cases p dbErr n msg d hd with h0 | ⟨m, hge, hm, he⟩
    · rw [h0] at h
      simp at h
    · rw [he] at h
      simp only [List.mem_singleton, Effect.insertGlobalAggregate.injEq] at h
      obtain ⟨h1, h2, h3⟩ := h
      subst h1 h2 h3
      refine ⟨d, rfl, rfl, rfl, hge, hm, ?_⟩
      refine ⟨(FilterNegative (collectedAfter n d.RoundID d.PriceData)).insertionSort
        (fun a b => a ≤ b), List.sorted_insertionSort _ _, List.perm_insertionSort _ _, ?_⟩
      exact hm

/-- C2, at the input of the claim: with two peers and `100, -1` collected for
round 1, the frame carrying `110` makes the node insert `100`. -/
theorem HandlePriceDataMessage_writes_median_witness :
    ∃ d, (priceFrame "N3" 1 110).Data.asPriceData = Sum.inr d ∧ (1 : Int) = d.RoundID ∧
      "btc" = (feed 2 (freshNode "btc" "N1")
        [(none, priceFrame "N1" 1 100), (none, priceFrame "N2" 1 (-1))]).1.Name ∧
      2 + 1 ≤ (collectedAfter (feed 2 (freshNode "btc" "N1")
        [(none, priceFrame "N1" 1 100), (none, priceFrame "N2" 1 (-1))]).1
          d.RoundID d.PriceData).length ∧
      FindMedianInt64 (FilterNegative (collectedAfter (feed 2 (freshNode "btc" "N1")
        [(none, priceFrame "N1" 1 100), (none, priceFrame "N2" 1 (-1))]).1
          d.RoundID d.PriceData)) = some 100 ∧
      ∃ sorted : List Int, sorted.Sorted (fun a b => a ≤ b) ∧
        sorted.Perm ((collectedAfter (feed 2 (freshNode "btc" "N1")
          [(none, priceFrame "N1" 1 100), (none, priceFrame "N2" 1 (-1))]).1
            d.RoundID d.PriceData).filter (fun x => decide (0 ≤ x))) ∧
        sorted[(sorted.length - 1) / 2]? = some 100 :=
  HandlePriceDataMessage_writes_median 2 none
    (feed 2 (freshNode "btc" "N1")
      [(none, priceFrame "N1" 1 100), (none, priceFrame "N2" 1 (-1))]).1
    (priceFrame "N3" 1 110) "btc" 100 1 (by decide)

/-- C3, refuted as stated: with one peer, handling the same frame of sender
`N2` once leaves `[5]` collected and writes nothing; handling it twice counts it
twice, reaches the threshold, writes `5` and clears the round. -/
theorem HandlePriceDataMessage_replay_counts_twice :
    (HandlePriceDataMessage 1 none (freshNode "btc" "N1")
        (priceFrame "N2" 1 5)).node.CollectedPrices 1 = some [5] ∧
    (HandlePriceDataMessage 1 none (freshNode "btc" "N1") (priceFrame "N2" 1 5)).effects = [] ∧
    (feed 1 (freshNode "btc" "N1")
        [(none, priceFrame "N2" 1 5), (none, priceFrame "N2" 1 5)]).1.CollectedPrices 1 = none ∧
    (feed 1 (freshNode "btc" "N1")
        [(none, priceFrame "N2" 1 5), (none, priceFrame "N2" 1 5)]).2 =
      [Effect.insertGlobalAggregate "btc" 5 1] := by
  decide

/-- C3, amended: `HandlePriceDataMessage` does not look at the sender, so a
call gives the same result whoever sent the frame, and a second delivery of a
frame is appended like any other submission: while the threshold is not reached
(`len + 2 ≤ peers`), handling the same frame twice leaves its value collected
twice for the round and writes nothing. -/
theorem HandlePriceDataMessage_ignores_sender (p : Nat) (e₁ e₂ : Option GoError)
    (n : AggregatorNode) (msg : Message) (d : PriceDataMessage)
    (hd : msg.Data.asPriceData = Sum.inr d)
    (hlt : ((n.CollectedPrices d.RoundID).getD []).length + 2 < p + 1) :
    (∀ sender : String, HandlePriceDataMessage p e₁ n { msg with SentFrom := sender } =
      HandlePriceDataMessage p e₁ n msg) ∧
    (feed p n [(e₁, msg), (e₂, msg)]).1.CollectedPrices d.RoundID =
      some ((n.CollectedPrices d.RoundID).getD [] ++ [d.PriceData, d.PriceData]) ∧
    (feed p n [(e₁, msg), (e₂, msg)]).2 = [] := by
  refine ⟨fun _ => rfl, ?_⟩
  have h1 := HandlePriceDataMessage_below p e₁ n msg d hd
    (by simp only [collectedAfter, List.length_append, List.length_singleton]; omega)
  have hc : collectedAfter
      { n with
        CollectedPrices :=
          mapSet n.CollectedPrices d.RoundID (collectedAfter n d.RoundID d.PriceData) }
      d.RoundID d.PriceData =
      (n.CollectedPrices d.RoundID).getD [] ++ [d.PriceData, d.PriceData] := by
    simp [collectedAfter, mapSet]
  have h2 := HandlePriceDataMessage_below p e₂
    { n with
      CollectedPrices :=
        mapSet n.CollectedPrices d.RoundID (collectedAfter n d.RoundID d.PriceData) }
    msg d hd
    (by rw [hc]; simp only [List.length_append, List.length_cons, List.length_nil]; omega)
  simp only [feed, h1, h2, hc, List.append_nil, mapSet, if_true, and_self]

/-- C3, amended, at an input: three peers, empty state, the frame of `N2`
delivered twice is collected twice. -/
theorem HandlePriceDataMessage_ignores_sender_witness :
    (∀ sender : String, HandlePriceDataMessage 3 none (freshNode "btc" "N1")
        { priceFrame "N2" 1 5 with SentFrom := sender } =
      HandlePriceDataMessage 3 none (freshNode "btc" "N1") (priceFrame "N2" 1 5)) ∧
    (feed 3 (freshNode "btc" "N1")
        [(none, priceFrame "N2" 1 5), (none, priceFrame "N2" 1 5)]).1.CollectedPrices
        (PriceDataMessage.mk 1 5).RoundID =
      some (((freshNode "btc" "N1").CollectedPrices (PriceDataMessage.mk 1 5).RoundID).getD [] ++
        [(PriceDataMessage.mk 1 5).PriceData, (PriceDataMessage.mk 1 5).PriceData]) ∧
    (feed 3 (freshNode "btc" "N1")
        [(none, priceFrame "N2" 1 5), (none, priceFrame "N2" 1 5)]).2 = [] :=
  HandlePriceDataMessage_ignores_sender 3 none none (freshNode "btc" "N1")
    (priceFrame "N2" 1 5) (PriceDataMessage.mk 1 5) rfl (by decide)

/-- C4, refuted as stated: on a node without peers the frame `(round 1, -1)`
brings the collected count to `1 ≥ 0 + 1`, yet nothing is inserted: no price is
left after the filter, the median is undefined and the call aborts. -/
theorem HandlePriceDataMessage_quorum_without_insert :
    0 + 1 ≤ (collectedAfter (freshNode "btc" "N1") 1 (-1)).length ∧
    (HandlePriceDataMessage 0 none (freshNode "btc" "N1") (priceFrame "N1" 1 (-1))).effects = [] ∧
    (HandlePriceDataMessage 0 none (freshNode "btc" "N1") (priceFrame "N1" 1 (-1))).ret =
      Return.aborted := by
  decide

/-- C4, amended: with `p` peers, `HandlePriceDataMessage` inserts the aggregate
(the median of the filtered prices) for the round of the frame exactly when,
after appending the incoming price, at least `p + 1` prices are collected for
that round and one of them is not negative; with fewer than `p + 1` it stores
the appended list, returns `nil` and inserts nothing. -/
theorem HandlePriceDataMessage_inserts_iff (p : Nat) (dbErr : Option GoError)
    (n : AggregatorNode) (msg : Message) (d : PriceDataMessage)
    (hd : msg.Data.asPriceData = Sum.inr d) :
    ((∃ median, FindMedianInt64 (FilterNegative (collectedAfter n d.RoundID d.PriceData)) =
          some median ∧
        (HandlePriceDataMessage p dbErr n msg).effects =
          [Effect.insertGlobalAggregate n.Name median d.RoundID]) ↔
      (p + 1 ≤ (collectedAfter n d.RoundID d.PriceData).length ∧
        ∃ x ∈ collectedAfter n d.RoundID d.PriceData, 0 ≤ x)) ∧
    ((collectedAfter n d.RoundID d.PriceData).length < p + 1 →
      (HandlePriceDataMessage p dbErr n msg).effects = [] ∧
      (HandlePriceDataMessage p dbErr n msg).ret = Return.nil ∧
      (HandlePriceDataMessage p dbErr n msg).node.CollectedPrices d.RoundID =
        some (collectedAfter n d.RoundID d.PriceData)) := by
  constructor
  · constructor
    · rintro ⟨m, hm, he⟩
      have hge : p + 1 ≤ (collectedAfter n d.RoundID d.PriceData).length := by
        by_contra hlt
        rw [HandlePriceDataMessage_below p dbErr n msg d hd (by omega)] at he
        simp at he
      refine ⟨hge, ?_⟩
      by_contra hneg
      have hnil : FilterNegative (collectedAfter n d.RoundID d.PriceData) = [] := by
        rw [FilterNegative_eq_nil_iff]
        intro x hx
        by_contra hx0
        exact hneg ⟨x, hx, by omega⟩
      rw [hnil] at hm
      simp [FindMedianInt64] at hm
    · rintro ⟨hge, x, hx, hx0⟩
      cases hm : FindMedianInt64 (FilterNegative (collectedAfter n d.RoundID d.PriceData)) with
      | none =>
        rw [FindMedianInt64_eq_none_iff, FilterNegative_eq_nil_iff] at hm
        have := hm x hx
        omega
      | some m =>
        exact ⟨m, rfl, HandlePriceDataMessage_quorum_effects p dbErr n msg d m hd hge hm⟩
  · intro hlt
    rw [HandlePriceDataMessage_below p dbErr n msg d hd hlt]
    simp [mapSet]

/-- C4, amended, at an input: two peers, `100` and `-1` collected, the third
frame carries `110`. -/
theorem HandlePriceDataMessage_inserts_iff_witness :
    ((∃ median, FindMedianInt64 (FilterNegative (collectedAfter
          (nodeWith "btc" "N1" 1 [100, -1])
          (PriceDataMessage.mk 1 110).RoundID (PriceDataMessage.mk 1 110).PriceData)) =
          some median ∧
        (HandlePriceDataMessage 2 none
          (nodeWith "btc" "N1" 1 [100, -1])
          (priceFrame "N3" 1 110)).effects =
          [Effect.insertGlobalAggregate
            (nodeWith "btc" "N1" 1 [100, -1]).Name median (PriceDataMessage.mk 1 110).RoundID]) ↔
      (2 + 1 ≤ (collectedAfter
          (nodeWith "btc" "N1" 1 [100, -1])
          (PriceDataMessage.mk 1 110).RoundID (PriceDataMessage.mk 1 110).PriceData).length ∧
        ∃ x ∈ collectedAfter
          (nodeWith "btc" "N1" 1 [100, -1])
          (PriceDataMessage.mk 1 110).RoundID (PriceDataMessage.mk 1 110).PriceData, 0 ≤ x)) ∧
    ((collectedAfter
          (nodeWith "btc" "N1" 1 [100, -1])
          (PriceDataMessage.mk 1 110).RoundID (PriceDataMessage.mk 1 110).PriceData).length < 2 + 1 →
      (HandlePriceDataMessage 2 none
          (nodeWith "btc" "N1" 1 [100, -1])
          (priceFrame "N3" 1 110)).effects = [] ∧
      (HandlePriceDataMessage 2 none
          (nodeWith "btc" "N1" 1 [100, -1])
          (priceFrame "N3" 1 110)).ret = Return.nil ∧
      (HandlePriceDataMessage 2 none
          (nodeWith "btc" "N1" 1 [100, -1])
          (priceFrame "N3" 1 110)).node.CollectedPrices (PriceDataMessage.mk 1 110).RoundID =
        some (collectedAfter
          (nodeWith "btc" "N1" 1 [100, -1])
          (PriceDataMessage.mk 1 110).RoundID (PriceDataMessage.mk 1 110).PriceData)) :=
  HandlePriceDataMessage_inserts_iff 2 none
    (nodeWith "btc" "N1" 1 [100, -1])
    (priceFrame "N3" 1 110) (PriceDataMessage.mk 1 110) rfl

/-- C5, refuted as stated: with two peers (`n = 3`) and `100` collected for
round 1, the second submission `104` reaches the strict majority `3 / 2 + 1 = 2`
and nothing is aggregated: the two prices stay collected. -/
theorem HandlePriceDataMessage_majority_no_insert :
    (collectedAfter (nodeWith "btc" "N1" 1 [100]) 1 104).length = (2 + 1) / 2 + 1 ∧
    (HandlePriceDataMessage 2 none (nodeWith "btc" "N1" 1 [100]) (priceFrame "N2" 1 104)).effects
      = [] ∧
    (HandlePriceDataMessage 2 none (nodeWith "btc" "N1" 1 [100])
      (priceFrame "N2" 1 104)).node.CollectedPrices 1 = some [100, 104] := by
  decide

/-- C5, amended: with `n = peers + 1`, a round is aggregated as soon as the
number of collected submissions reaches `n`, not the strict majority: a
submission that brings the count to fewer than `n` (also when that is
`n / 2 + 1` or more) is only appended and nothing is inserted, and the one that
brings it to `n` makes the node insert the median, provided a non-negative price
was collected. -/
theorem HandlePriceDataMessage_aggregates_at_unanimity (p : Nat) (dbErr : Option GoError)
    (n : AggregatorNode) (msg : Message) (d : PriceDataMessage)
    (hd : msg.Data.asPriceData = Sum.inr d)
    (hx : ∃ x ∈ collectedAfter n d.RoundID d.PriceData, 0 ≤ x) :
    ((collectedAfter n d.RoundID d.PriceData).length < p + 1 →
      (HandlePriceDataMessage p dbErr n msg).effects = [] ∧
      (HandlePriceDataMessage p dbErr n msg).node.CollectedPrices d.RoundID =
        some (collectedAfter n d.RoundID d.PriceData)) ∧
    ((collectedAfter n d.RoundID d.PriceData).length = p + 1 →
      ∃ median, FindMedianInt64 (FilterNegative (collectedAfter n d.RoundID d.PriceData)) =
          some median ∧
        (HandlePriceDataMessage p dbErr n msg).effects =
          [Effect.insertGlobalAggregate n.Name median d.RoundID]) := by
  constructor
  · intro hlt
    rw [HandlePriceDataMessage_below p dbErr n msg d hd hlt]
    simp [mapSet]
  · intro heq
    obtain ⟨x, hx, hx0⟩ := hx
    cases hm : FindMedianInt64 (FilterNegative (collectedAfter n d.RoundID d.PriceData)) with
    | none =>
      rw [FindMedianInt64_eq_none_iff, FilterNegative_eq_nil_iff] at hm
      have := hm x hx
      omega
    | some m =>
      exact ⟨m, rfl, HandlePriceDataMessage_quorum_effects p dbErr n msg d m hd (by omega) hm⟩

/-- C5, amended, at an input: three nodes, the third submission. -/
theorem HandlePriceDataMessage_aggregates_at_unanimity_witness :
    ((collectedAfter (nodeWith "btc" "N1" 1 [100, 104]) 1 110).length < 2 + 1 →
      (HandlePriceDataMessage 2 none (nodeWith "btc" "N1" 1 [100, 104])
        (priceFrame "N3" 1 110)).effects = [] ∧
      (HandlePriceDataMessage 2 none (nodeWith "btc" "N1" 1 [100, 104])
        (priceFrame "N3" 1 110)).node.CollectedPrices 1 =
        some (collectedAfter (nodeWith "btc" "N1" 1 [100, 104]) 1 110)) ∧
    ((collectedAfter (nodeWith "btc" "N1" 1 [100, 104]) 1 110).length = 2 + 1 →
      ∃ median, FindMedianInt64 (FilterNegative
          (collectedAfter (nodeWith "btc" "N1" 1 [100, 104]) 1 110)) = some median ∧
        (HandlePriceDataMessage 2 none (nodeWith "btc" "N1" 1 [100, 104])
          (priceFrame "N3" 1 110)).effects =
          [Effect.insertGlobalAggregate "btc" median 1]) :=
  HandlePriceDataMessage_aggregates_at_unanimity 2 none (nodeWith "btc" "N1" 1 [100, 104])
    (priceFrame "N3" 1 110) (PriceDataMessage.mk 1 110) rfl ⟨100, by decide, by decide⟩

/-- C6: on a node without peers, for every round `r` and value `v ≥ 0`, a frame
carrying `(r, v)` handled in a state with no collected prices for `r` (no entry, or an
empty one) makes the
node call the insert with value `v` for round `r` (whatever the database
answers); the insert accepted, the call returns `nil` and no entry is left for
`r`. -/
theorem HandlePriceDataMessage_singleton (dbErr : Option GoError) (n : AggregatorNode)
    (msg : Message) (r v : Int)
    (hd : msg.Data.asPriceData = Sum.inr { RoundID := r, PriceData := v })
    (hv : 0 ≤ v) (h0 : (n.CollectedPrices r).getD [] = []) :
    (HandlePriceDataMessage 0 dbErr n msg).effects = [Effect.insertGlobalAggregate n.Name v r] ∧
    (HandlePriceDataMessage 0 none n msg).effects = [Effect.insertGlobalAggregate n.Name v r] ∧
    (HandlePriceDataMessage 0 none n msg).node.CollectedPrices r = none ∧
    (HandlePriceDataMessage 0 none n msg).ret = Return.nil := by
  have hc : collectedAfter n r v = [v] := by simp [collectedAfter, h0]
  have hm : FindMedianInt64 (FilterNegative
      (collectedAfter n (PriceDataMessage.mk r v).RoundID (PriceDataMessage.mk r v).PriceData)) =
      some v := by
    show FindMedianInt64 (FilterNegative (collectedAfter n r v)) = some v
    rw [hc]
    simp [FilterNegative, hv, FindMedianInt64]
  have hge : 0 + 1 ≤ (collectedAfter n (PriceDataMessage.mk r v).RoundID
      (PriceDataMessage.mk r v).PriceData).length := by
    show 0 + 1 ≤ (collectedAfter n r v).length
    rw [hc]
    simp
  refine ⟨HandlePriceDataMessage_quorum_effects 0 dbErr n msg _ v hd hge hm, ?_⟩
  rw [HandlePriceDataMessage_quorum_ok 0 n msg _ v hd hge hm]
  simp [mapDelete]

/-- C6, at the input of the claim: the singleton node handles `(round 1, 42)`. -/
theorem HandlePriceDataMessage_singleton_witness :
    (HandlePriceDataMessage 0 (some (GoError.db "down")) (freshNode "btc" "N1")
      (priceFrame "N1" 1 42)).effects = [Effect.insertGlobalAggregate "btc" 42 1] ∧
    (HandlePriceDataMessage 0 none (freshNode "btc" "N1") (priceFrame "N1" 1 42)).effects =
      [Effect.insertGlobalAggregate "btc" 42 1] ∧
    (HandlePriceDataMessage 0 none (freshNode "btc" "N1")
      (priceFrame "N1" 1 42)).node.CollectedPrices 1 = none ∧
    (HandlePriceDataMessage 0 none (freshNode "btc" "N1") (priceFrame "N1" 1 42)).ret =
      Return.nil :=
  HandlePriceDataMessage_singleton (some (GoError.db "down")) (freshNode "btc" "N1")
    (priceFrame "N1" 1 42) 1 42 rfl (by decide) rfl

/-- C7: if every price collected for a round, the incoming one included, is the
sentinel `-1` when the threshold `peers + 1` is reached, `HandlePriceDataMessage`
calls no insert: the median of the empty filtered list is undefined, the call
aborts and the collected prices stay. -/
theorem HandlePriceDataMessage_all_sentinel (p : Nat) (dbErr : Option GoError)
    (n : AggregatorNode) (msg : Message) (d : PriceDataMessage)
    (hd : msg.Data.asPriceData = Sum.inr d)
    (hall : ∀ x ∈ collectedAfter n d.RoundID d.PriceData, x = -1)
    (hge : p + 1 ≤ (collectedAfter n d.RoundID d.PriceData).length) :
    (HandlePriceDataMessage p dbErr n msg).effects = [] ∧
    (HandlePriceDataMessage p dbErr n msg).ret = Return.aborted ∧
    (HandlePriceDataMessage p dbErr n msg).node.CollectedPrices d.RoundID =
      some (collectedAfter n d.RoundID d.PriceData) := by
  have hm : FindMedianInt64 (FilterNegative (collectedAfter n d.RoundID d.PriceData)) = none := by
    rw [FindMedianInt64_eq_none_iff, FilterNegative_eq_nil_iff]
    intro x hx
    rw [hall x hx]
    decide
  rw [HandlePriceDataMessage_undefined p dbErr n msg d hd hge hm]
  simp [mapSet]

/-- C7, at an input: three nodes, all three submissions are `-1`. -/
theorem HandlePriceDataMessage_all_sentinel_witness :
    (HandlePriceDataMessage 2 none (nodeWith "btc" "N1" 7 [-1, -1]) (priceFrame "N3" 7 (-1))).effects
      = [] ∧
    (HandlePriceDataMessage 2 none (nodeWith "btc" "N1" 7 [-1, -1]) (priceFrame "N3" 7 (-1))).ret
      = Return.aborted ∧
    (HandlePriceDataMessage 2 none (nodeWith "btc" "N1" 7 [-1, -1])
      (priceFrame "N3" 7 (-1))).node.CollectedPrices 7 = some [-1, -1, -1] :=
  HandlePriceDataMessage_all_sentinel 2 none (nodeWith "btc" "N1" 7 [-1, -1])
    (priceFrame "N3" 7 (-1)) (PriceDataMessage.mk 7 (-1)) rfl (by decide) (by decide)

/-- C8, refuted as stated: with one peer, the submissions `10, 20, 30` of three
distinct senders for round 1 write `10` when they arrive in this order and `20`
when they arrive in the reverse order. -/
theorem feed_order_dependent :
    ([(none, priceFrame "N3" 1 30), (none, priceFrame "N2" 1 20),
        (none, priceFrame "N1" 1 10)] : List (Option GoError × Message)).Perm
      [(none, priceFrame "N1" 1 10), (none, priceFrame "N2" 1 20),
        (none, priceFrame "N3" 1 30)] ∧
    (["N1", "N2", "N3"] : List String).Nodup ∧
    insertsFor 1 (feed 1 (freshNode "btc" "N1")
      [(none, priceFrame "N1" 1 10), (none, priceFrame "N2" 1 20),
        (none, priceFrame "N3" 1 30)]).2 = [10] ∧
    insertsFor 1 (feed 1 (freshNode "btc" "N1")
      [(none, priceFrame "N3" 1 30), (none, priceFrame "N2" 1 20),
        (none, priceFrame "N1" 1 10)]).2 = [20] := by
  refine ⟨?_, by decide, by decide, by decide⟩
  exact List.reverse_perm
    [(none, priceFrame "N1" 1 10), (none, priceFrame "N2" 1 20), (none, priceFrame "N3" 1 30)]

/-- C8, amended: for every round `r` and every two arrival orders of the same
frames (any rounds, any senders, any database answers), if the prices already
collected for `r` and the frames for `r` together are at most `peers + 1` (one
submission per node), the values inserted for `r` are the same in both orders:
the median of all of them when the count reaches `peers + 1`, none otherwise. -/
theorem feed_order_independent (p : Nat) (r : Int)
    (calls₁ calls₂ : List (Option GoError × Message)) (n : AggregatorNode)
    (hperm : calls₁.Perm calls₂)
    (hle : ((n.CollectedPrices r).getD []).length + (pricesFor r calls₁).length ≤ p + 1) :
    insertsFor r (feed p n calls₁).2 = insertsFor r (feed p n calls₂).2 := by
  have hpp := pricesFor_perm r hperm
  have hlen := hpp.length_eq
  rw [feed_inserts_of_le p r calls₁ n hle, feed_inserts_of_le p r calls₂ n (by omega)]
  have hmed : FindMedianInt64 (FilterNegative
      ((n.CollectedPrices r).getD [] ++ pricesFor r calls₁)) =
      FindMedianInt64 (FilterNegative ((n.CollectedPrices r).getD [] ++ pricesFor r calls₂)) :=
    FindMedianInt64_perm (FilterNegative_perm (hpp.append_left _))
  have hnil : pricesFor r calls₁ ≠ [] ↔ pricesFor r calls₂ ≠ [] := by
    rw [ne_eq, ne_eq, ← List.length_eq_zero, ← List.length_eq_zero, hlen]
  rw [hmed, hlen]
  simp only [hnil]

/-- C8, amended, at an input: three nodes, the submissions `100, 104, 110` in
two orders. -/
theorem feed_order_independent_witness :
    insertsFor 1 (feed 2 (freshNode "btc" "N1")
      [(none, priceFrame "N3" 1 110), (none, priceFrame "N2" 1 104),
        (none, priceFrame "N1" 1 100)]).2 =
    insertsFor 1 (feed 2 (freshNode "btc" "N1")
      [(none, priceFrame "N1" 1 100), (none, priceFrame "N2" 1 104),
        (none, priceFrame "N3" 1 110)]).2 :=
  feed_order_independent 2 1
    [(none, priceFrame "N3" 1 110), (none, priceFrame "N2" 1 104),
      (none, priceFrame "N1" 1 100)]
    [(none, priceFrame "N1" 1 100), (none, priceFrame "N2" 1 104),
      (none, priceFrame "N3" 1 110)]
    (freshNode "btc" "N1")
    (List.reverse_perm [(none, priceFrame "N1" 1 100), (none, priceFrame "N2" 1 104),
      (none, priceFrame "N3" 1 110)])
    (by decide)

/-- C9: `LeaderJob` sets `RoundID` to the previous value plus one in the
arithmetic of its `w`-bit type (the previous value plus one itself whenever that
fits the type), touches no other field, and publishes exactly one message: it
is of type `RoundSync`, sent from the host id of the node, and its payload
carries that host id as `LeaderID` and the new `RoundID`. -/
theorem LeaderJob_increments_and_broadcasts (w : Nat) (pubErr : Option GoError)
    (n : AggregatorNode) :
    (LeaderJob w pubErr n).node.RoundID = wrapSigned w (n.RoundID + 1) ∧
    (0 < w → -(2 : Int) ^ (w - 1) ≤ n.RoundID + 1 → n.RoundID + 1 < 2 ^ (w - 1) →
      (LeaderJob w pubErr n).node.RoundID = n.RoundID + 1) ∧
    (LeaderJob w pubErr n).effects =
      [Effect.publish
        { Type_ := MessageType.RoundSync
          SentFrom := n.HostID
          Data := marshalRoundSync
            { LeaderID := n.HostID, RoundID := (LeaderJob w pubErr n).node.RoundID } }] ∧
    triggerRounds (LeaderJob w pubErr n).effects = [(LeaderJob w pubErr n).node.RoundID] ∧
    (LeaderJob w pubErr n).node.HostID = n.HostID ∧
    (LeaderJob w pubErr n).node.Name = n.Name ∧
    (LeaderJob w pubErr n).node.LastLocalAggregateTime = n.LastLocalAggregateTime ∧
    (LeaderJob w pubErr n).node.CollectedPrices = n.CollectedPrices ∧
    (LeaderJob w pubErr n).ret = Return.ofError pubErr := by
  refine ⟨rfl, ?_, rfl, ?_, rfl, rfl, rfl, rfl, rfl⟩
  · intro hw hlo hhi
    exact wrapSigned_of_inRange w hw _ hlo hhi
  · have h := triggerRounds_LeaderJob w pubErr n []
    simpa [triggerRounds] using h

/-- C9, at an input: the `int64` `RoundID` of 41 becomes 42 and one trigger for
round 42 is published. -/
theorem LeaderJob_increments_and_broadcasts_witness :
    (LeaderJob 64 none { freshNode "btc" "N1" with RoundID := 41 }).node.RoundID = 42 ∧
    (LeaderJob 64 none { freshNode "btc" "N1" with RoundID := 41 }).effects =
      [Effect.publish
        { Type_ := MessageType.RoundSync
          SentFrom := "N1"
          Data := marshalRoundSync { LeaderID := "N1", RoundID := 42 } }] :=
  ⟨((LeaderJob_increments_and_broadcasts 64 none
      { freshNode "btc" "N1" with RoundID := 41 }).2.1 (by decide) (by decide) (by decide)),
    by decide⟩

/-- C10, refuted as stated: with the `int64` `RoundID` of node.go at `2^63 - 2`,
two consecutive `LeaderJob` calls publish the rounds `9223372036854775807` and
then `-9223372036854775808`: the second is smaller than the first. -/
theorem leaderJobs_rounds_wrap :
    triggerRounds (leaderJobs 64 { freshNode "btc" "N1" with RoundID := 9223372036854775806 }
      [none, none]).2 = [9223372036854775807, -9223372036854775808] ∧
    ¬ (triggerRounds (leaderJobs 64 { freshNode "btc" "N1" with RoundID := 9223372036854775806 }
      [none, none]).2).Sorted (fun a b => a < b) := by
  decide

/-- C10, amended: as long as no increment leaves the range of the `w`-bit type
(`RoundID + k < 2^(w-1)`), `k` consecutive `LeaderJob` calls on one node publish
the rounds `RoundID + 1, ..., RoundID + k`, which are strictly increasing, and
leave `RoundID + k` in the node, whatever the transport answers. -/
theorem leaderJobs_rounds_increasing (w : Nat) (hw : 0 < w)
    (pubErrs : List (Option GoError)) (n : AggregatorNode)
    (hlo : -(2 : Int) ^ (w - 1) ≤ n.RoundID + 1)
    (hhi : n.RoundID + pubErrs.length < 2 ^ (w - 1)) :
    triggerRounds (leaderJobs w n pubErrs).2 =
      (List.range pubErrs.length).map (fun i : Nat => n.RoundID + 1 + i) ∧
    (triggerRounds (leaderJobs w n pubErrs).2).Sorted (fun a b => a < b) ∧
    (leaderJobs w n pubErrs).1.RoundID = n.RoundID + pubErrs.length := by
  have key : ∀ (es : List (Option GoError)) (m : AggregatorNode),
      -(2 : Int) ^ (w - 1) ≤ m.RoundID + 1 → m.RoundID + es.length < 2 ^ (w - 1) →
      triggerRounds (leaderJobs w m es).2 =
        (List.range es.length).map (fun i : Nat => m.RoundID + 1 + i) ∧
      (leaderJobs w m es).1.RoundID = m.RoundID + es.length := by
    intro es
    induction es with
    | nil => intro m _ _; simp [leaderJobs, triggerRounds]
    | cons e es ih =>
      intro m hlo hhi
      simp only [List.length_cons, Nat.cast_add, Nat.cast_one] at hhi
      have hstep : (LeaderJob w e m).node.RoundID = m.RoundID + 1 :=
        wrapSigned_of_inRange w hw _ hlo (by omega)
      obtain ⟨ih1, ih2⟩ := ih (LeaderJob w e m).node (by rw [hstep]; omega)
        (by rw [hstep]; omega)
      constructor
      · simp only [leaderJobs, triggerRounds_LeaderJob, ih1, hstep, List.length_cons,
          List.range_succ_eq_map, List.map_cons, List.map_map]
        rw [wrapSigned_of_inRange w hw _ hlo (by omega)]
        simp only [Nat.cast_zero, add_zero, List.cons.injEq, true_and]
        apply List.map_congr_left
        intro i _
        simp only [Function.comp_apply, Nat.succ_eq_add_one, Nat.cast_add, Nat.cast_one]
        omega
      · simp only [leaderJobs, ih2, hstep, List.length_cons, Nat.cast_add, Nat.cast_one]
        omega
  obtain ⟨h1, h2⟩ := key pubErrs n hlo hhi
  refine ⟨h1, ?_, h2⟩
  rw [h1]
  apply List.Pairwise.map _ _ (List.pairwise_lt_range _)
  intro a b hab
  omega

/-- C10, amended, at an input: three calls from round 5 of the `int64`
`RoundID`. -/
theorem leaderJobs_rounds_increasing_witness :
    triggerRounds (leaderJobs 64 { freshNode "btc" "N1" with RoundID := 5 }
      [none, some (GoError.pubsub "closed"), none]).2 =
      (List.range 3).map (fun i : Nat => (5 : Int) + 1 + i) ∧
    (triggerRounds (leaderJobs 64 { freshNode "btc" "N1" with RoundID := 5 }
      [none, some (GoError.pubsub "closed"), none]).2).Sorted (fun a b => a < b) ∧
    (leaderJobs 64 { freshNode "btc" "N1" with RoundID := 5 }
      [none, some (GoError.pubsub "closed"), none]).1.RoundID = 5 + 3 :=
  leaderJobs_rounds_increasing 64 (by decide) [none, some (GoError.pubsub "closed"), none]
    { freshNode "btc" "N1" with RoundID := 5 } (by decide) (by decide)

/-- C11, refuted as stated: the node `N2` expects `N1` as leader and receives a
trigger for round 7 sent by `N9`; the trigger is not ignored: `RoundID` goes
from 0 to 7, `LastLocalAggregateTime` from 0 to 5 and a `PriceData` message with
the local value 100 is published. -/
theorem HandleRoundSyncMessage_accepts_any_sender :
    (triggerFrame "N9" 7).SentFrom ≠
      ({ freshNode "btc" "N2" with Leader := "N1" } : AggregatorNode).Leader ∧
    (HandleRoundSyncMessage (Sum.inr ⟨1, 100, 5⟩) (Sum.inl (GoError.db "down")) none
      { freshNode "btc" "N2" with Leader := "N1" } (triggerFrame "N9" 7)).node.RoundID = 7 ∧
    (HandleRoundSyncMessage (Sum.inr ⟨1, 100, 5⟩) (Sum.inl (GoError.db "down")) none
      { freshNode "btc" "N2" with Leader := "N1" }
      (triggerFrame "N9" 7)).node.LastLocalAggregateTime = 5 ∧
    (HandleRoundSyncMessage (Sum.inr ⟨1, 100, 5⟩) (Sum.inl (GoError.db "down")) none
      { freshNode "btc" "N2" with Leader := "N1" } (triggerFrame "N9" 7)).effects =
      [Effect.publish (priceFrame "N2" 7 100)] := by
  decide

/-- C11, amended: `HandleRoundSyncMessage` makes no check of the sender against
a leader: for every trigger that decodes, the effects, the return value, the new
`RoundID` and the new `LastLocalAggregateTime` are the same whoever sent the
trigger and whichever leader the node expects; `RoundID` is set to the round id
of the trigger and, the lookup of the local aggregate succeeding, exactly one
`PriceData` message for that round is published. -/
theorem HandleRoundSyncMessage_no_leader_check (rdb pgs : GoError ⊕ LocalAggregate)
    (pubErr : Option GoError) (n : AggregatorNode) (msg : Message) (d : RoundSyncMessage)
    (v t : Int) (hd : msg.Data.asRoundSync = Sum.inr d)
    (hl : getLatestLocalAggregate rdb pgs = Sum.inr (v, t)) :
    (∀ sender leader : String,
      (HandleRoundSyncMessage rdb pgs pubErr { n with Leader := leader }
          { msg with SentFrom := sender }).effects =
        (HandleRoundSyncMessage rdb pgs pubErr n msg).effects ∧
      (HandleRoundSyncMessage rdb pgs pubErr { n with Leader := leader }
          { msg with SentFrom := sender }).ret =
        (HandleRoundSyncMessage rdb pgs pubErr n msg).ret ∧
      (HandleRoundSyncMessage rdb pgs pubErr { n with Leader := leader }
          { msg with SentFrom := sender }).node.RoundID =
        (HandleRoundSyncMessage rdb pgs pubErr n msg).node.RoundID ∧
      (HandleRoundSyncMessage rdb pgs pubErr { n with Leader := leader }
          { msg with SentFrom := sender }).node.LastLocalAggregateTime =
        (HandleRoundSyncMessage rdb pgs pubErr n msg).node.LastLocalAggregateTime) ∧
    (HandleRoundSyncMessage rdb pgs pubErr n msg).node.RoundID = d.RoundID ∧
    ∃ value, (HandleRoundSyncMessage rdb pgs pubErr n msg).effects =
      [Effect.publish (priceFrame n.HostID d.RoundID value)] := by
  by_cases h : n.LastLocalAggregateTime = 0 ∨ n.LastLocalAggregateTime ≠ t
  · refine ⟨fun sender leader => ?_, ?_, v, ?_⟩
    · rw [HandleRoundSyncMessage_fresh rdb pgs pubErr n msg d v t hd hl h,
        HandleRoundSyncMessage_fresh rdb pgs pubErr { n with Leader := leader }
          { msg with SentFrom := sender } d v t hd hl h]
      exact ⟨rfl, rfl, rfl, rfl⟩
    · rw [HandleRoundSyncMessage_fresh rdb pgs pubErr n msg d v t hd hl h]
    · rw [HandleRoundSyncMessage_fresh rdb pgs pubErr n msg d v t hd hl h]
  · have h0 : n.LastLocalAggregateTime ≠ 0 := fun h0 => h (Or.inl h0)
    have ht : n.LastLocalAggregateTime = t := by
      by_contra hne
      exact h (Or.inr hne)
    refine ⟨fun sender leader => ?_, ?_, -1, ?_⟩
    · rw [HandleRoundSyncMessage_stale rdb pgs pubErr n msg d v t hd hl h0 ht,
        HandleRoundSyncMessage_stale rdb pgs pubErr { n with Leader := leader }
          { msg with SentFrom := sender } d v t hd hl h0 ht]
      exact ⟨rfl, rfl, rfl, rfl⟩
    · rw [HandleRoundSyncMessage_stale rdb pgs pubErr n msg d v t hd hl h0 ht]
    · rw [HandleRoundSyncMessage_stale rdb pgs pubErr n msg d v t hd hl h0 ht]

/-- C11, amended, at an input: the trigger for round 7 that `N9` sends to `N2`. -/
theorem HandleRoundSyncMessage_no_leader_check_witness :
    (HandleRoundSyncMessage (Sum.inr ⟨1, 100, 5⟩) (Sum.inl (GoError.db "down")) none
      (freshNode "btc" "N2") (triggerFrame "N9" 7)).node.RoundID = 7 ∧
    ∃ value, (HandleRoundSyncMessage (Sum.inr ⟨1, 100, 5⟩) (Sum.inl (GoError.db "down")) none
      (freshNode "btc" "N2") (triggerFrame "N9" 7)).effects =
      [Effect.publish (priceFrame "N2" 7 value)] :=
  (HandleRoundSyncMessage_no_leader_check (Sum.inr ⟨1, 100, 5⟩) (Sum.inl (GoError.db "down"))
    none (freshNode "btc" "N2") (triggerFrame "N9" 7) ⟨"N9", 7⟩ 100 5 rfl rfl).2

/-- C12: when the timestamp of the latest local aggregate equals the non-zero
`LastLocalAggregateTime` of the node, `HandleRoundSyncMessage` publishes one
`PriceData` message, sent from the node, with the round id of the trigger and
the value `-1`; `LastLocalAggregateTime` is unchanged and `RoundID` is the round
id of the trigger. -/
theorem HandleRoundSyncMessage_stale_publishes_sentinel (rdb pgs : GoError ⊕ LocalAggregate)
    (pubErr : Option GoError) (n : AggregatorNode) (msg : Message) (d : RoundSyncMessage)
    (v t : Int) (hd : msg.Data.asRoundSync = Sum.inr d)
    (hl : getLatestLocalAggregate rdb pgs = Sum.inr (v, t))
    (h0 : n.LastLocalAggregateTime ≠ 0) (ht : t = n.LastLocalAggregateTime) :
    (HandleRoundSyncMessage rdb pgs pubErr n msg).effects =
      [Effect.publish
        { Type_ := MessageType.PriceData
          SentFrom := n.HostID
          Data := marshalPriceData { RoundID := d.RoundID, PriceData := -1 } }] ∧
    (HandleRoundSyncMessage rdb pgs pubErr n msg).node.LastLocalAggregateTime =
      n.LastLocalAggregateTime ∧
    (HandleRoundSyncMessage rdb pgs pubErr n msg).node.RoundID = d.RoundID ∧
    (HandleRoundSyncMessage rdb pgs pubErr n msg).ret = Return.ofError pubErr := by
  rw [HandleRoundSyncMessage_stale rdb pgs pubErr n msg d v t hd hl h0 ht.symm]
  exact ⟨rfl, rfl, rfl, rfl⟩

/-- C12, at an input: `N2` reported the aggregate of time 5 before and finds it
again at the trigger for round 8. -/
theorem HandleRoundSyncMessage_stale_publishes_sentinel_witness :
    (HandleRoundSyncMessage (Sum.inr ⟨1, 104, 5⟩) (Sum.inl (GoError.db "down")) none
      { freshNode "btc" "N2" with LastLocalAggregateTime := 5 } (triggerFrame "N1" 8)).effects =
      [Effect.publish
        { Type_ := MessageType.PriceData
          SentFrom := "N2"
          Data := marshalPriceData { RoundID := 8, PriceData := -1 } }] ∧
    (HandleRoundSyncMessage (Sum.inr ⟨1, 104, 5⟩) (Sum.inl (GoError.db "down")) none
      { freshNode "btc" "N2" with LastLocalAggregateTime := 5 }
      (triggerFrame "N1" 8)).node.LastLocalAggregateTime = 5 ∧
    (HandleRoundSyncMessage (Sum.inr ⟨1, 104, 5⟩) (Sum.inl (GoError.db "down")) none
      { freshNode "btc" "N2" with LastLocalAggregateTime := 5 }
      (triggerFrame "N1" 8)).node.RoundID = 8 ∧
    (HandleRoundSyncMessage (Sum.inr ⟨1, 104, 5⟩) (Sum.inl (GoError.db "down")) none
      { freshNode "btc" "N2" with LastLocalAggregateTime := 5 } (triggerFrame "N1" 8)).ret =
      Return.ofError none :=
  HandleRoundSyncMessage_stale_publishes_sentinel (Sum.inr ⟨1, 104, 5⟩)
    (Sum.inl (GoError.db "down")) none { freshNode "btc" "N2" with LastLocalAggregateTime := 5 }
    (triggerFrame "N1" 8) ⟨"N1", 8⟩ 104 5 rfl rfl (by decide) rfl

/-- C13, refuted as stated: when both lookups of the latest local aggregate
fail, the trigger for round 7 makes `HandleRoundSyncMessage` return the error
and publish nothing, after it has set `RoundID` to 7. -/
theorem HandleRoundSyncMessage_no_aggregate_no_publish :
    (HandleRoundSyncMessage (Sum.inl (GoError.db "redis: nil")) (Sum.inl (GoError.db "no rows"))
      none (freshNode "btc" "N2") (triggerFrame "N1" 7)).effects = [] ∧
    (HandleRoundSyncMessage (Sum.inl (GoError.db "redis: nil")) (Sum.inl (GoError.db "no rows"))
      none (freshNode "btc" "N2") (triggerFrame "N1" 7)).ret =
      Return.err (GoError.db "no rows") ∧
    (HandleRoundSyncMessage (Sum.inl (GoError.db "redis: nil")) (Sum.inl (GoError.db "no rows"))
      none (freshNode "btc" "N2") (triggerFrame "N1" 7)).node.RoundID = 7 := by
  decide

/-- C13, amended: when no latest local aggregate is available, that is when
the Redis lookup fails and the Postgres lookup fails too,
`HandleRoundSyncMessage` returns the error of the Postgres lookup and publishes
nothing; `RoundID` is already set to the round id of the trigger and
`LastLocalAggregateTime` is unchanged. -/
theorem HandleRoundSyncMessage_lookup_failure (rdb pgs : GoError ⊕ LocalAggregate)
    (pubErr : Option GoError) (n : AggregatorNode) (msg : Message) (d : RoundSyncMessage)
    (e₁ e₂ : GoError) (hd : msg.Data.asRoundSync = Sum.inr d)
    (hr : rdb = Sum.inl e₁) (hp : pgs = Sum.inl e₂) :
    (HandleRoundSyncMessage rdb pgs pubErr n msg).effects = [] ∧
    (HandleRoundSyncMessage rdb pgs pubErr n msg).ret = Return.err e₂ ∧
    (HandleRoundSyncMessage rdb pgs pubErr n msg).node.RoundID = d.RoundID ∧
    (HandleRoundSyncMessage rdb pgs pubErr n msg).node.LastLocalAggregateTime =
      n.LastLocalAggregateTime := by
  have hl : getLatestLocalAggregate rdb pgs = Sum.inl e₂ := by
    subst hr hp
    rfl
  rw [HandleRoundSyncMessage_lookup_error rdb pgs pubErr n msg d e₂ hd hl]
  exact ⟨rfl, rfl, rfl, rfl⟩

/-- C13, amended, at an input: both lookups fail at the trigger for round 9. -/
theorem HandleRoundSyncMessage_lookup_failure_witness :
    (HandleRoundSyncMessage (Sum.inl (GoError.db "redis: nil")) (Sum.inl (GoError.db "no rows"))
      none { freshNode "btc" "N2" with LastLocalAggregateTime := 5 }
      (triggerFrame "N1" 9)).effects = [] ∧
    (HandleRoundSyncMessage (Sum.inl (GoError.db "redis: nil")) (Sum.inl (GoError.db "no rows"))
      none { freshNode "btc" "N2" with LastLocalAggregateTime := 5 }
      (triggerFrame "N1" 9)).ret = Return.err (GoError.db "no rows") ∧
    (HandleRoundSyncMessage (Sum.inl (GoError.db "redis: nil")) (Sum.inl (GoError.db "no rows"))
      none { freshNode "btc" "N2" with LastLocalAggregateTime := 5 }
      (triggerFrame "N1" 9)).node.RoundID = 9 ∧
    (HandleRoundSyncMessage (Sum.inl (GoError.db "redis: nil")) (Sum.inl (GoError.db "no rows"))
      none { freshNode "btc" "N2" with LastLocalAggregateTime := 5 }
      (triggerFrame "N1" 9)).node.LastLocalAggregateTime = 5 :=
  HandleRoundSyncMessage_lookup_failure (Sum.inl (GoError.db "redis: nil"))
    (Sum.inl (GoError.db "no rows")) none { freshNode "btc" "N2" with LastLocalAggregateTime := 5 }
    (triggerFrame "N1" 9) ⟨"N1", 9⟩ (GoError.db "redis: nil") (GoError.db "no rows") rfl rfl rfl

/-- C14, refuted as stated: a node that has reported nothing yet
(`LastLocalAggregateTime` is the zero time) loads an aggregate of value 7 whose
timestamp is the zero time: the timestamp does not differ from
`LastLocalAggregateTime`, and the value 7 is published, not `-1`. -/
theorem HandleRoundSyncMessage_zero_time_publishes_value :
    (LocalAggregate.mk 1 7 0).Timestamp = (freshNode "btc" "N2").LastLocalAggregateTime ∧
    (HandleRoundSyncMessage (Sum.inr (LocalAggregate.mk 1 7 0)) (Sum.inl (GoError.db "down")) none
      (freshNode "btc" "N2") (triggerFrame "N1" 3)).effects =
      [Effect.publish (priceFrame "N2" 3 7)] ∧
    (HandleRoundSyncMessage (Sum.inr (LocalAggregate.mk 1 7 0)) (Sum.inl (GoError.db "down")) none
      (freshNode "btc" "N2") (triggerFrame "N1" 3)).effects ≠
      [Effect.publish (priceFrame "N2" 3 (-1))] := by
  decide

/-- C14, amended: for every loaded local aggregate (value `v`, timestamp `t`)
and every `LastLocalAggregateTime`, `HandleRoundSyncMessage` publishes `v` and
records `t` as `LastLocalAggregateTime` when `LastLocalAggregateTime` is the zero
time or differs from `t`; when it is not the zero time and equals `t`, it
publishes `-1` and leaves `LastLocalAggregateTime` as it is. -/
theorem HandleRoundSyncMessage_fresh_or_stale (rdb pgs : GoError ⊕ LocalAggregate)
    (pubErr : Option GoError) (n : AggregatorNode) (msg : Message) (d : RoundSyncMessage)
    (v t : Int) (hd : msg.Data.asRoundSync = Sum.inr d)
    (hl : getLatestLocalAggregate rdb pgs = Sum.inr (v, t)) :
    ((n.LastLocalAggregateTime = 0 ∨ t ≠ n.LastLocalAggregateTime) →
      (HandleRoundSyncMessage rdb pgs pubErr n msg).effects =
        [Effect.publish (priceFrame n.HostID d.RoundID v)] ∧
      (HandleRoundSyncMessage rdb pgs pubErr n msg).node.LastLocalAggregateTime = t) ∧
    ((n.LastLocalAggregateTime ≠ 0 ∧ t = n.LastLocalAggregateTime) →
      (HandleRoundSyncMessage rdb pgs pubErr n msg).effects =
        [Effect.publish (priceFrame n.HostID d.RoundID (-1))] ∧
      (HandleRoundSyncMessage rdb pgs pubErr n msg).node.LastLocalAggregateTime =
        n.LastLocalAggregateTime) := by
  constructor
  · intro h
    have h' : n.LastLocalAggregateTime = 0 ∨ n.LastLocalAggregateTime ≠ t :=
      h.imp id (fun hne heq => hne heq.symm)
    rw [HandleRoundSyncMessage_fresh rdb pgs pubErr n msg d v t hd hl h']
    exact ⟨rfl, rfl⟩
  · rintro ⟨h0, ht⟩
    rw [HandleRoundSyncMessage_stale rdb pgs pubErr n msg d v t hd hl h0 ht.symm]
    exact ⟨rfl, rfl⟩

/-- C14, amended, at an input: the node reported time 5 and loads the aggregate
of value 110 and time 6. -/
theorem HandleRoundSyncMessage_fresh_or_stale_witness :
    (HandleRoundSyncMessage (Sum.inr ⟨1, 110, 6⟩) (Sum.inl (GoError.db "down")) none
      { freshNode "btc" "N3" with LastLocalAggregateTime := 5 } (triggerFrame "N1" 4)).effects =
      [Effect.publish (priceFrame "N3" 4 110)] ∧
    (HandleRoundSyncMessage (Sum.inr ⟨1, 110, 6⟩) (Sum.inl (GoError.db "down")) none
      { freshNode "btc" "N3" with LastLocalAggregateTime := 5 }
      (triggerFrame "N1" 4)).node.LastLocalAggregateTime = 6 :=
  (HandleRoundSyncMessage_fresh_or_stale (Sum.inr ⟨1, 110, 6⟩) (Sum.inl (GoError.db "down")) none
    { freshNode "btc" "N3" with LastLocalAggregateTime := 5 } (triggerFrame "N1" 4) ⟨"N1", 4⟩
    110 6 rfl rfl).1 (Or.inr (by decide))

/-- C15, refuted as stated: the trigger for round 3 delivered twice to `N2`
makes it publish twice for round 3, first the local value 100 and then `-1`. -/
theorem HandleRoundSyncMessage_replay_publishes_again :
    (HandleRoundSyncMessage (Sum.inr ⟨1, 100, 5⟩) (Sum.inl (GoError.db "down")) none
      (freshNode "btc" "N2") (triggerFrame "N1" 3)).effects =
      [Effect.publish (priceFrame "N2" 3 100)] ∧
    (HandleRoundSyncMessage (Sum.inr ⟨1, 100, 5⟩) (Sum.inl (GoError.db "down")) none
      (HandleRoundSyncMessage (Sum.inr ⟨1, 100, 5⟩) (Sum.inl (GoError.db "down")) none
        (freshNode "btc" "N2") (triggerFrame "N1" 3)).node
      (triggerFrame "N1" 3)).effects = [Effect.publish (priceFrame "N2" 3 (-1))] := by
  decide

/-- C15, amended: a second delivery of a trigger is handled like the first and
publishes another `PriceData` message for the round; when both deliveries load
the same local aggregate, of a timestamp that is not the zero time, the second
message carries `-1` and the second delivery leaves the node as the first left
it. -/
theorem HandleRoundSyncMessage_replay (rdb pgs : GoError ⊕ LocalAggregate)
    (pubErr₁ pubErr₂ : Option GoError) (n : AggregatorNode) (msg : Message)
    (d : RoundSyncMessage) (v t : Int) (hd : msg.Data.asRoundSync = Sum.inr d)
    (hl : getLatestLocalAggregate rdb pgs = Sum.inr (v, t)) (ht : t ≠ 0) :
    (HandleRoundSyncMessage rdb pgs pubErr₂
      (HandleRoundSyncMessage rdb pgs pubErr₁ n msg).node msg).effects =
      [Effect.publish (priceFrame n.HostID d.RoundID (-1))] ∧
    (HandleRoundSyncMessage rdb pgs pubErr₂
      (HandleRoundSyncMessage rdb pgs pubErr₁ n msg).node msg).node =
      (HandleRoundSyncMessage rdb pgs pubErr₁ n msg).node := by
  by_cases h : n.LastLocalAggregateTime = 0 ∨ n.LastLocalAggregateTime ≠ t
  · rw [HandleRoundSyncMessage_fresh rdb pgs pubErr₁ n msg d v t hd hl h]
    rw [HandleRoundSyncMessage_stale rdb pgs pubErr₂ _ msg d v t hd hl ht rfl]
    exact ⟨rfl, rfl⟩
  · have h0 : n.LastLocalAggregateTime ≠ 0 := fun h0 => h (Or.inl h0)
    have hn : n.LastLocalAggregateTime = t := by
      by_contra hne
      exact h (Or.inr hne)
    rw [HandleRoundSyncMessage_stale rdb pgs pubErr₁ n msg d v t hd hl h0 hn]
    have h2 := HandleRoundSyncMessage_stale rdb pgs pubErr₂ { n with RoundID := d.RoundID }
      msg d v t hd hl h0 hn
    dsimp only at h2 ⊢
    rw [h2]
    exact ⟨rfl, rfl⟩

/-- C15, amended, at an input: the trigger for round 3 delivered twice. -/
theorem HandleRoundSyncMessage_replay_witness :
    (HandleRoundSyncMessage (Sum.inr ⟨1, 100, 5⟩) (Sum.inl (GoError.db "down")) none
      (HandleRoundSyncMessage (Sum.inr ⟨1, 100, 5⟩) (Sum.inl (GoError.db "down")) none
        (freshNode "btc" "N2") (triggerFrame "N1" 3)).node
      (triggerFrame "N1" 3)).node =
    (HandleRoundSyncMessage (Sum.inr ⟨1, 100, 5⟩) (Sum.inl (GoError.db "down")) none
      (freshNode "btc" "N2") (triggerFrame "N1" 3)).node :=
  (HandleRoundSyncMessage_replay (Sum.inr ⟨1, 100, 5⟩) (Sum.inl (GoError.db "down")) none none
    (freshNode "btc" "N2") (triggerFrame "N1" 3) ⟨"N1", 3⟩ 100 5 rfl rfl (by decide)).2

/-- C16: `RoundPrices.isReplay` and `RoundProofs.isReplay` return `true` exactly
when the map `senders` has an entry for the round and the sender is an element
of it; for a round without entry they return `false`. -/
theorem isReplay_iff_mem (rp : RoundPrices) (rq : RoundProofs) (roundID : Int)
    (sender : String) :
    (rp.isReplay roundID sender = true ↔
      ∃ l, rp.senders roundID = some l ∧ sender ∈ l) ∧
    (rq.isReplay roundID sender = true ↔
      ∃ l, rq.senders roundID = some l ∧ sender ∈ l) ∧
    (rp.senders roundID = none → rp.isReplay roundID sender = false) ∧
    (rq.senders roundID = none → rq.isReplay roundID sender = false) := by
  refine ⟨?_, ?_, ?_, ?_⟩
  · rw [RoundPrices.isReplay, senderLoop_eq_true_iff]
    cases rp.senders roundID <;> simp
  · rw [RoundProofs.isReplay, senderLoop_eq_true_iff]
    cases rq.senders roundID <;> simp
  · intro h
    simp [RoundPrices.isReplay, h, senderLoop]
  · intro h
    simp [RoundProofs.isReplay, h, senderLoop]

/-- C16, at an input: `N2` has sent for round 4, `N3` has not, and round 5 has
no entry. -/
theorem isReplay_iff_mem_witness :
    RoundPrices.isReplay
      { senders := fun r => if r = 4 then some ["N1", "N2"] else none
        prices := fun r => if r = 4 then some [100, 104] else none
        locked := fun _ => none } 4 "N2" = true ∧
    RoundPrices.isReplay
      { senders := fun r => if r = 4 then some ["N1", "N2"] else none
        prices := fun r => if r = 4 then some [100, 104] else none
        locked := fun _ => none } 4 "N3" = false ∧
    RoundPrices.isReplay
      { senders := fun r => if r = 4 then some ["N1", "N2"] else none
        prices := fun r => if r = 4 then some [100, 104] else none
        locked := fun _ => none } 5 "N2" = false :=
  ⟨(isReplay_iff_mem
      { senders := fun r => if r = 4 then some ["N1", "N2"] else none
        prices := fun r => if r = 4 then some [100, 104] else none
        locked := fun _ => none }
      { senders := fun _ => none, proofs := fun _ => none, locked := fun _ => none }
      4 "N2").1.mpr ⟨["N1", "N2"], rfl, by decide⟩,
    by decide,
    (isReplay_iff_mem
      { senders := fun r => if r = 4 then some ["N1", "N2"] else none
        prices := fun r => if r = 4 then some [100, 104] else none
        locked := fun _ => none }
      { senders := fun _ => none, proofs := fun _ => none, locked := fun _ => none }
      5 "N2").2.2.1 rfl⟩

/-- C17: after `cleanup(r)` on `RoundTriggers`, `RoundPrices` and `RoundProofs`
none of the maps `locked`, `senders`, `prices`, `proofs` has an entry for `r`;
after `cleanup` has been called for every round of a list no entry remains for
any round of the list, so after the calls for every round from `lo` up to
`R - K` no entry remains for a round `r` with `lo ≤ r ≤ R - K`. -/
theorem cleanup_removes_round (s : RoundState) (r : Int) :
    (s.RoundTriggers.cleanup r).locked r = none ∧
    ((s.roundPrices.cleanup r).senders r = none ∧ (s.roundPrices.cleanup r).prices r = none ∧
      (s.roundPrices.cleanup r).locked r = none) ∧
    ((s.roundProofs.cleanup r).senders r = none ∧ (s.roundProofs.cleanup r).proofs r = none ∧
      (s.roundProofs.cleanup r).locked r = none) ∧
    (∀ rounds : List Int, r ∈ rounds → (s.cleanupAll rounds).absent r) ∧
    (∀ lo R K : Int, lo ≤ r → r ≤ R - K →
      (s.cleanupAll (roundsBetween lo (R - K))).absent r) := by
  refine ⟨?_, ?_, ?_, ?_, ?_⟩
  · simp [RoundTriggers.cleanup, mapDelete]
  · simp [RoundPrices.cleanup, mapDelete]
  · simp [RoundProofs.cleanup, mapDelete]
  · intro rounds h
    exact RoundState.absent_cleanupAll_of_mem rounds s r h
  · intro lo R K h1 h2
    exact RoundState.absent_cleanupAll_of_mem _ s r ((mem_roundsBetween lo (R - K) r).mpr ⟨h1, h2⟩)

/-- C17, at an input: rounds 1 to 9 hold entries, round 9 is finalized with
`K = 3` and rounds 0 to 6 are cleaned: round 5 has no entry left. -/
theorem cleanup_removes_round_witness :
    (RoundState.cleanupAll
      { RoundTriggers := { locked := fun r => if 1 ≤ r ∧ r ≤ 9 then some true else none }
        roundPrices :=
          { senders := fun r => if 1 ≤ r ∧ r ≤ 9 then some ["N1"] else none
            prices := fun r => if 1 ≤ r ∧ r ≤ 9 then some [100] else none
            locked := fun r => if 1 ≤ r ∧ r ≤ 9 then some true else none }
        roundProofs :=
          { senders := fun r => if 1 ≤ r ∧ r ≤ 9 then some ["N1"] else none
            proofs := fun r => if 1 ≤ r ∧ r ≤ 9 then some [[1, 2]] else none
            locked := fun r => if 1 ≤ r ∧ r ≤ 9 then some true else none } }
      (roundsBetween 0 (9 - 3))).absent 5 :=
  (cleanup_removes_round
      { RoundTriggers := { locked := fun r => if 1 ≤ r ∧ r ≤ 9 then some true else none }
        roundPrices :=
          { senders := fun r => if 1 ≤ r ∧ r ≤ 9 then some ["N1"] else none
            prices := fun r => if 1 ≤ r ∧ r ≤ 9 then some [100] else none
            locked := fun r => if 1 ≤ r ∧ r ≤ 9 then some true else none }
        roundProofs :=
          { senders := fun r => if 1 ≤ r ∧ r ≤ 9 then some ["N1"] else none
            proofs := fun r => if 1 ≤ r ∧ r ≤ 9 then some [[1, 2]] else none
            locked := fun r => if 1 ≤ r ∧ r ≤ 9 then some true else none } }
      5).2.2.2.2 0 9 3 (by decide) (by decide)

/-- C18: for every store, id and aggregate `a`, `Load(id)` after `Store(id, a)`
returns `(a, true)`, whatever was stored under `id` before: of two writes under
one id the last is the one that is read. -/
theorem Load_after_Store (s : LatestLocalAggregates) (id : Int) (a b : LocalAggregate) :
    (s.Store id a).Load id = (a, true) ∧
    ((s.Store id b).Store id a).Load id = (a, true) := by
  simp [LatestLocalAggregates.Load, LatestLocalAggregates.Store, mapSet]

/-- C19: `Load(id)` on a store built from `NewLatestLocalAggregates` by stores
under other ids only returns the zero `LocalAggregate` and `false`; every `Load`
on the store that `NewLatestLocalAggregates` returns gives `false`. -/
theorem Load_never_stored (ops : List (Int × LocalAggregate)) (id : Int)
    (hne : ∀ op ∈ ops, op.1 ≠ id) :
    (NewLatestLocalAggregates.storeAll ops).Load id = (LocalAggregate.zero, false) ∧
    ∀ id' : Int, NewLatestLocalAggregates.Load id' = (LocalAggregate.zero, false) := by
  constructor
  · rw [LatestLocalAggregates.Load_storeAll_of_not_mem ops _ id hne]
    rfl
  · intro id'
    rfl

/-- C19, at an input: ids 1 and 2 are stored, id 3 is loaded. -/
theorem Load_never_stored_witness :
    (NewLatestLocalAggregates.storeAll [(1, ⟨1, 100, 5⟩), (2, ⟨2, 7, 6⟩)]).Load 3 =
      (LocalAggregate.zero, false) :=
  (Load_never_stored [(1, ⟨1, 100, 5⟩), (2, ⟨2, 7, 6⟩)] 3 (by decide)).1

/-- C20: for every message whose type is neither `RoundSync` nor `PriceData`,
`HandleCustomMessage` returns `nil`, has no effect (nothing is published, nothing
is inserted) and leaves the node as it was. -/
theorem HandleCustomMessage_other_type (peers : Nat) (rdb pgs : GoError ⊕ LocalAggregate)
    (pubErr dbErr : Option GoError) (n : AggregatorNode) (message : Message)
    (h1 : message.Type_ ≠ MessageType.RoundSync) (h2 : message.Type_ ≠ MessageType.PriceData) :
    (HandleCustomMessage peers rdb pgs pubErr dbErr n message).ret = Return.nil ∧
    (HandleCustomMessage peers rdb pgs pubErr dbErr n message).effects = [] ∧
    (HandleCustomMessage peers rdb pgs pubErr dbErr n message).node = n := by
  unfold HandleCustomMessage
  cases ht : message.Type_ with
  | RoundSync => exact absurd ht h1
  | PriceData => exact absurd ht h2
  | Other tag => exact ⟨rfl, rfl, rfl⟩

/-- C20, at an input: a frame of type `proof` that carries a decodable price
payload is not handled. -/
theorem HandleCustomMessage_other_type_witness :
    (HandleCustomMessage 0 (Sum.inr ⟨1, 100, 5⟩) (Sum.inl (GoError.db "down")) none none
      (freshNode "btc" "N1")
      { priceFrame "N2" 1 42 with Type_ := MessageType.Other "proof" }).ret = Return.nil ∧
    (HandleCustomMessage 0 (Sum.inr ⟨1, 100, 5⟩) (Sum.inl (GoError.db "down")) none none
      (freshNode "btc" "N1")
      { priceFrame "N2" 1 42 with Type_ := MessageType.Other "proof" }).effects = [] ∧
    (HandleCustomMessage 0 (Sum.inr ⟨1, 100, 5⟩) (Sum.inl (GoError.db "down")) none none
      (freshNode "btc" "N1")
      { priceFrame "N2" 1 42 with Type_ := MessageType.Other "proof" }).node =
      freshNode "btc" "N1" :=
  HandleCustomMessage_other_type 0 (Sum.inr ⟨1, 100, 5⟩) (Sum.inl (GoError.db "down")) none none
    (freshNode "btc" "N1") { priceFrame "N2" 1 42 with Type_ := MessageType.Other "proof" }
    (by decide) (by decide)

/-- C21: for every message whose payload fails to decode,
`HandleRoundSyncMessage` and `HandlePriceDataMessage` return the decode error,
have no effect (nothing is published, nothing is inserted) and leave the node,
with its `RoundID`, `LastLocalAggregateTime` and `CollectedPrices`, as it was. -/
theorem decode_failure_changes_nothing (peers : Nat) (rdb pgs : GoError ⊕ LocalAggregate)
    (pubErr dbErr : Option GoError) (n : AggregatorNode) (msg : Message) :
    (∀ e, msg.Data.asRoundSync = Sum.inl e →
      (HandleRoundSyncMessage rdb pgs pubErr n msg).ret = Return.err e ∧
      (HandleRoundSyncMessage rdb pgs pubErr n msg).effects = [] ∧
      (HandleRoundSyncMessage rdb pgs pubErr n msg).node = n) ∧
    (∀ e, msg.Data.asPriceData = Sum.inl e →
      (HandlePriceDataMessage peers dbErr n msg).ret = Return.err e ∧
      (HandlePriceDataMessage peers dbErr n msg).effects = [] ∧
      (HandlePriceDataMessage peers dbErr n msg).node = n) := by
  constructor
  · intro e he
    rw [HandleRoundSyncMessage_decode_error rdb pgs pubErr n msg e he]
    exact ⟨rfl, rfl, rfl⟩
  · intro e he
    rw [HandlePriceDataMessage_decode_error peers dbErr n msg e he]
    exact ⟨rfl, rfl, rfl⟩

/-- C21, at an input: a frame whose payload is no JSON, handled by a node that
holds prices for round 4. -/
theorem decode_failure_changes_nothing_witness :
    (HandleRoundSyncMessage (Sum.inr ⟨1, 100, 5⟩) (Sum.inl (GoError.db "down")) none
      (nodeWith "btc" "N1" 4 [100])
      { Type_ := MessageType.RoundSync, SentFrom := "N2"
        Data :=
          { asRoundSync := Sum.inl (GoError.json "unexpected end of JSON input")
            asPriceData := Sum.inl (GoError.json "unexpected end of JSON input") } }).ret =
      Return.err (GoError.json "unexpected end of JSON input") ∧
    (HandlePriceDataMessage 0 none (nodeWith "btc" "N1" 4 [100])
      { Type_ := MessageType.PriceData, SentFrom := "N2"
        Data :=
          { asRoundSync := Sum.inl (GoError.json "unexpected end of JSON input")
            asPriceData := Sum.inl (GoError.json "unexpected end of JSON input") } }).effects =
      [] :=
  ⟨((decode_failure_changes_nothing 0 (Sum.inr ⟨1, 100, 5⟩) (Sum.inl (GoError.db "down")) none
      none (nodeWith "btc" "N1" 4 [100])
      { Type_ := MessageType.RoundSync, SentFrom := "N2"
        Data :=
          { asRoundSync := Sum.inl (GoError.json "unexpected end of JSON input")
            asPriceData := Sum.inl (GoError.json "unexpected end of JSON input") } }).1
      (GoError.json "unexpected end of JSON input") rfl).1,
    by decide⟩

/-- C22: `setDefaultIntervals` sets `AggregateInterval` to 3000 when it is nil
or 0 and leaves any other value; likewise `FetchInterval` with 2000 and
`SubmitInterval` with 15000; afterwards each of the three is non-nil and
non-zero, and the name and the feeds are untouched. -/
theorem setDefaultIntervals_spec (config : ConfigInsertModel) :
    (setDefaultIntervals config).AggregateInterval =
      some (match config.AggregateInterval with
        | none => 3000
        | some v => if v = 0 then 3000 else v) ∧
    (setDefaultIntervals config).FetchInterval =
      some (match config.FetchInterval with
        | none => 2000
        | some v => if v = 0 then 2000 else v) ∧
    (setDefaultIntervals config).SubmitInterval =
      some (match config.SubmitInterval with
        | none => 15000
        | some v => if v = 0 then 15000 else v) ∧
    (∃ a f s : Int, a ≠ 0 ∧ f ≠ 0 ∧ s ≠ 0 ∧
      (setDefaultIntervals config).AggregateInterval = some a ∧
      (setDefaultIntervals config).FetchInterval = some f ∧
      (setDefaultIntervals config).SubmitInterval = some s) ∧
    (setDefaultIntervals config).Name = config.Name ∧
    (setDefaultIntervals config).Feeds = config.Feeds := by
  have hA := (setDefaultIntervals_AggregateInterval config).trans
    (nilOrZero_default 3000 config.AggregateInterval)
  have hF := (setDefaultIntervals_FetchInterval config).trans
    (nilOrZero_default 2000 config.FetchInterval)
  have hS := (setDefaultIntervals_SubmitInterval config).trans
    (nilOrZero_default 15000 config.SubmitInterval)
  have hnz : ∀ (d : Int) (o : Option Int), d ≠ 0 →
      (match o with
        | none => d
        | some v => if v = 0 then d else v) ≠ 0 := by
    intro d o hd
    cases o with
    | none => exact hd
    | some v =>
      by_cases hv : v = 0
      · simp [hv, hd]
      · simp [hv]
  exact ⟨hA, hF, hS, ⟨_, _, _, hnz 3000 _ (by decide), hnz 2000 _ (by decide),
    hnz 15000 _ (by decide), hA, hF, hS⟩, setDefaultIntervals_Name config,
    setDefaultIntervals_Feeds config⟩

/-- C23, refuted as stated: a config with an aggregate interval of 50 is
accepted by `Insert` and 50 is the value sent to the database. -/
theorem Insert_stores_short_interval :
    Insert (Sum.inr { Name := "btc-usdt", FetchInterval := none, AggregateInterval := some 50
                      SubmitInterval := none, Feeds := [] })
      (Sum.inr { ID := 1, Name := "btc-usdt", FetchInterval := some 2000
                 AggregateInterval := some 50, SubmitInterval := some 15000 })
      (fun _ => none) =
    ([AdminQuery.insertConfig "btc-usdt" (some 2000) (some 50) (some 15000)],
      Sum.inr { ID := 1, Name := "btc-usdt", FetchInterval := some 2000
                AggregateInterval := some 50, SubmitInterval := some 15000 }) ∧
    ¬ (100 : Int) ≤ 50 := by
  decide

/-- C23, amended: for every config that `Insert` parses, the aggregate interval
sent to the database is the given value when one is given and it is not 0, and
3000 otherwise; so it is at least 100 exactly when the given value is nil, 0 or
at least 100: `Insert` does not validate the interval. -/
theorem Insert_aggregate_interval (parsed : ConfigInsertModel)
    (dbAnswer : GoError ⊕ ConfigModel) (feedErr : Nat → Option GoError) :
    (Insert (Sum.inr parsed) dbAnswer feedErr).1.head? =
      some (AdminQuery.insertConfig parsed.Name (setDefaultIntervals parsed).FetchInterval
        (some (match parsed.AggregateInterval with
          | none => 3000
          | some v => if v = 0 then 3000 else v))
        (setDefaultIntervals parsed).SubmitInterval) ∧
    ((100 : Int) ≤ (match parsed.AggregateInterval with
        | none => 3000
        | some v => if v = 0 then 3000 else v) ↔
      (parsed.AggregateInterval = none ∨ parsed.AggregateInterval = some 0 ∨
        ∃ v, parsed.AggregateInterval = some v ∧ 100 ≤ v)) := by
  constructor
  · have hname := setDefaultIntervals_Name parsed
    have hagg := (setDefaultIntervals_AggregateInterval parsed).trans
      (nilOrZero_default 3000 parsed.AggregateInterval)
    rw [← hagg, ← hname]
    cases dbAnswer with
    | inl err => rfl
    | inr result =>
      simp only [Insert]
      split <;> rfl
  · cases h : parsed.AggregateInterval with
    | none => simp
    | some v =>
      by_cases hv : v = 0
      · simp [hv]
      · simp [hv]

/-- C24: the key middleware of the DAL API lets a request pass without key
check exactly when its URL, lowercased, is `/api/v1`; every other request is
admitted exactly when the key of the header `X-API-Key` is non-empty and equal
to the configured `API_KEY` (so an empty key is refused also when `API_KEY` is
empty), and is refused otherwise. -/
theorem keyauth_admits_iff (lower : String → String) (apiKey originalURL header : String) :
    (keyauth lower apiKey originalURL header = Admission.skipped ↔
      lower originalURL = "/api/v1") ∧
    (lower originalURL ≠ "/api/v1" →
      (keyauth lower apiKey originalURL header = Admission.admitted header ↔
        (header ≠ "" ∧ header = apiKey)) ∧
      (¬ (header ≠ "" ∧ header = apiKey) →
        ∃ reason, keyauth lower apiKey originalURL header = Admission.refused reason)) ∧
    (lower originalURL ≠ "/api/v1" →
      ∃ reason, keyauth lower "" originalURL "" = Admission.refused reason) := by
  have key : ∀ (k h : String), lower originalURL ≠ "/api/v1" →
      (keyauth lower k originalURL h = Admission.admitted h ↔ (h ≠ "" ∧ h = k)) ∧
      (¬ (h ≠ "" ∧ h = k) → ∃ reason, keyauth lower k originalURL h = Admission.refused reason) := by
    intro k h hu
    by_cases hh : h = ""
    · simp [keyauth, authFilter, hu, hh]
    · by_cases hk : h = k
      · subst hk
        simp [keyauth, authFilter, validator, hu, hh]
      · simp [keyauth, authFilter, validator, hu, hh, hk]
  refine ⟨?_, key apiKey header, ?_⟩
  · by_cases hu : lower originalURL = "/api/v1"
    · simp [keyauth, authFilter, hu]
    · simp only [hu, iff_false]
      by_cases hh : header = ""
      · simp [keyauth, authFilter, hu, hh]
      · by_cases hk : header = apiKey
        · subst hk
          simp [keyauth, authFilter, validator, hu, hh]
        · simp [keyauth, authFilter, validator, hu, hh, hk]
  · intro hu
    exact (key "" "" hu).2 (by simp)

/-- C24, at the inputs of the test: `/api/v1` passes without key, the data
route without key is refused, and a key of another value is refused. -/
theorem keyauth_admits_iff_witness :
    keyauth lowerASCII "secret" "/API/v1" "" = Admission.skipped ∧
    (keyauth lowerASCII "secret" "/api/v1/dal/latest-data-feeds/test-aggregate" "secret" =
      Admission.admitted "secret") ∧
    ∃ reason, keyauth lowerASCII "" "/api/v1/dal/latest-data-feeds/test-aggregate" "" =
      Admission.refused reason :=
  ⟨(keyauth_admits_iff lowerASCII "secret" "/API/v1" "").1.mpr (by decide),
    (((keyauth_admits_iff lowerASCII "secret"
      "/api/v1/dal/latest-data-feeds/test-aggregate" "secret").2.1 (by decide)).1).mpr
      ⟨by decide, rfl⟩,
    (keyauth_admits_iff lowerASCII "secret"
      "/api/v1/dal/latest-data-feeds/test-aggregate" "").2.2 (by decide)⟩

/-- C25: for every node count `n` and every submission count `c`, the test
`c > n × AGREEMENT_QUORUM` in exact rational arithmetic holds exactly when
`c ≥ ⌊n / 2⌋ + 1`. -/
theorem AGREEMENT_QUORUM_majority (n c : Nat) :
    (c : ℚ) > (n : ℚ) * AGREEMENT_QUORUM ↔ c ≥ n / 2 + 1 := by
  have h : (n : ℚ) * AGREEMENT_QUORUM < (c : ℚ) ↔ n < 2 * c := by
    unfold AGREEMENT_QUORUM
    constructor
    · intro h1
      have h2 : (n : ℚ) < 2 * (c : ℚ) := by linarith
      exact_mod_cast h2
    · intro h1
      have h2 : (n : ℚ) < 2 * (c : ℚ) := by exact_mod_cast h1
      linarith
  rw [gt_iff_lt, h]
  omega

/-- C26: `cleanup(r)` on `RoundTriggers`, `RoundPrices` or `RoundProofs` leaves
the entry of every other round `r'` in every map as it was, and on a state
without entry for `r` it changes nothing. -/
theorem cleanup_frame (s : RoundState) (r : Int) :
    (∀ r', r' ≠ r →
      (s.RoundTriggers.cleanup r).locked r' = s.RoundTriggers.locked r' ∧
      (s.roundPrices.cleanup r).senders r' = s.roundPrices.senders r' ∧
      (s.roundPrices.cleanup r).prices r' = s.roundPrices.prices r' ∧
      (s.roundPrices.cleanup r).locked r' = s.roundPrices.locked r' ∧
      (s.roundProofs.cleanup r).senders r' = s.roundProofs.senders r' ∧
      (s.roundProofs.cleanup r).proofs r' = s.roundProofs.proofs r' ∧
      (s.roundProofs.cleanup r).locked r' = s.roundProofs.locked r') ∧
    (s.absent r →
      s.RoundTriggers.cleanup r = s.RoundTriggers ∧
      s.roundPrices.cleanup r = s.roundPrices ∧
      s.roundProofs.cleanup r = s.roundProofs ∧
      s.cleanup r = s) := by
  have hdel : ∀ {V : Type} (m : Int → Option V), m r = none → mapDelete m r = m := by
    intro V m h
    funext j
    by_cases hj : j = r
    · simp [mapDelete, hj, h]
    · simp [mapDelete, hj]
  constructor
  · intro r' h
    simp [RoundTriggers.cleanup, RoundPrices.cleanup, RoundProofs.cleanup, mapDelete, h]
  · rintro ⟨h1, h2, h3, h4, h5, h6, h7⟩
    have e1 : s.RoundTriggers.cleanup r = s.RoundTriggers := by
      simp only [RoundTriggers.cleanup, hdel _ h1]
    have e2 : s.roundPrices.cleanup r = s.roundPrices := by
      simp only [RoundPrices.cleanup, hdel _ h2, hdel _ h3, hdel _ h4]
    have e3 : s.roundProofs.cleanup r = s.roundProofs := by
      simp only [RoundProofs.cleanup, hdel _ h5, hdel _ h6, hdel _ h7]
    refine ⟨e1, e2, e3, ?_⟩
    simp only [RoundState.cleanup, e1, e2, e3]

/-- C26, at an input: round 4 is cleaned in a state that holds rounds 4 and 5. -/
theorem cleanup_frame_witness :
    (RoundPrices.cleanup
      { senders := fun r => if r = 4 ∨ r = 5 then some ["N1"] else none
        prices := fun r => if r = 4 ∨ r = 5 then some [100] else none
        locked := fun _ => none } 4).prices 5 = some [100] :=
  ((cleanup_frame
      { RoundTriggers := { locked := fun _ => none }
        roundPrices :=
          { senders := fun r => if r = 4 ∨ r = 5 then some ["N1"] else none
            prices := fun r => if r = 4 ∨ r = 5 then some [100] else none
            locked := fun _ => none }
        roundProofs := { senders := fun _ => none, proofs := fun _ => none, locked := fun _ => none } }
      4).1 5 (by decide)).2.2.1

/-- C27: when `insertGlobalAggregate` is called and fails,
`HandlePriceDataMessage` returns that error, the collected prices of the round
stay, with every price received and the incoming one, and the collected prices
of every other round are as they were. -/
theorem HandlePriceDataMessage_insert_failure (p : Nat) (e : GoError) (n : AggregatorNode)
    (msg : Message) (name : String) (value round : Int)
    (h : Effect.insertGlobalAggregate name value round ∈
      (HandlePriceDataMessage p (some e) n msg).effects) :
    (HandlePriceDataMessage p (some e) n msg).ret = Return.err e ∧
    (∃ d, msg.Data.asPriceData = Sum.inr d ∧ d.RoundID = round ∧
      (HandlePriceDataMessage p (some e) n msg).node.CollectedPrices round =
        some ((n.CollectedPrices round).getD [] ++ [d.PriceData])) ∧
    (∀ r, r ≠ round →
      (HandlePriceDataMessage p (some e) n msg).node.CollectedPrices r = n.CollectedPrices r) := by
  cases hd : msg.Data.asPriceData with
  | inl e' =>
    rw [HandlePriceDataMessage_decode_error p (some e) n msg e' hd] at h
    simp at h
  | inr d =>
    rcases HandlePriceDataMessage_effects_cases p (some e) n msg d hd with h0 | ⟨m, hge, hm, he⟩
    · rw [h0] at h
      simp at h
    · rw [he] at h
      simp only [List.mem_singleton, Effect.insertGlobalAggregate.injEq] at h
      obtain ⟨-, -, h3⟩ := h
      subst h3
      rw [HandlePriceDataMessage_quorum_dbErr p e n msg d m hd hge hm]
      refine ⟨rfl, ⟨d, rfl, rfl, ?_⟩, ?_⟩
      · simp [mapSet, collectedAfter]
      · intro r hr
        simp [mapSet, hr]

/-- C27, at an input: the database is down when the third price of round 1
arrives. -/
theorem HandlePriceDataMessage_insert_failure_witness :
    (HandlePriceDataMessage 2 (some (GoError.db "down")) (nodeWith "btc" "N1" 1 [100, 104])
      (priceFrame "N3" 1 110)).ret = Return.err (GoError.db "down") ∧
    (HandlePriceDataMessage 2 (some (GoError.db "down")) (nodeWith "btc" "N1" 1 [100, 104])
      (priceFrame "N3" 1 110)).node.CollectedPrices 1 = some [100, 104, 110] :=
  ⟨(HandlePriceDataMessage_insert_failure 2 (GoError.db "down") (nodeWith "btc" "N1" 1 [100, 104])
      (priceFrame "N3" 1 110) "btc" 104 1 (by decide)).1, by decide⟩

/-- C28, the code at the failing input: one client, the transaction is built,
and `SubmitRawTx` fails on the client with a JSON-RPC error for which the next
client is to be tried: `SubmitDirect` returns `nil` although no submission
succeeded. -/
theorem SubmitDirect_nil_without_success :
    (SubmitDirect
      { clients := [1]
        getNonce := fun _ => Sum.inr 7
        makeTx := fun _ _ => Sum.inr 100
        submitRawTx := fun _ _ _ =>
          some { retrySwitch := true, nonce := false, detail := "connection refused" } }).1 =
      none ∧
    (SubmitDirect
      { clients := [1]
        getNonce := fun _ => Sum.inr 7
        makeTx := fun _ _ => Sum.inr 100
        submitRawTx := fun _ _ _ =>
          some { retrySwitch := true, nonce := false, detail := "connection refused" } }).2 =
      [{ client := 1, ok := false }] := by
  decide

/-- C29, the code at the failing input: two clients, and `utils.MakeDirectTx`
fails on both with a JSON-RPC error for which the next client is to be tried:
`retryOnJsonRpcFailure` returns `nil`, so `MakeDirectTx` returns a nil error
together with the nil transaction. -/
theorem MakeDirectTx_nil_without_transaction :
    MakeDirectTx
      { clients := [1, 2]
        getNonce := fun _ => Sum.inr 7
        makeTx := fun _ _ =>
          Sum.inl { retrySwitch := true, nonce := false, detail := "connection refused" }
        submitRawTx := fun _ _ _ => none } 0 = (none, none, 1) := by
  decide

/-- C30: in `sync`, the ids joined into the bulk `DELETE` are, in the order of
the database rows, the ids of exactly the database configs whose name is not the
name of a loaded config; the query is sent when there is such a config and no
query is sent when there is none. -/
theorem sync_bulk_delete (loadedConfigs : List ConfigInsertModel)
    (dbConfigs : List ConfigModel) :
    removingConfigs loadedConfigs dbConfigs =
      (dbConfigs.filter
        (fun d => decide (d.Name ∉ loadedConfigs.map (fun c => c.Name)))).map
        (fun d => toString d.ID) ∧
    ((∀ d ∈ dbConfigs, d.Name ∈ loadedConfigs.map (fun c => c.Name)) →
      bulkDeleteConfigQuery loadedConfigs dbConfigs = []) ∧
    ((∃ d ∈ dbConfigs, d.Name ∉ loadedConfigs.map (fun c => c.Name)) →
      bulkDeleteConfigQuery loadedConfigs dbConfigs =
        [AdminQuery.query ("DELETE FROM configs WHERE id IN (" ++
          ",".intercalate ((dbConfigs.filter
            (fun d => decide (d.Name ∉ loadedConfigs.map (fun c => c.Name)))).map
            (fun d => toString d.ID)) ++ ")")]) := by
  have hf := removingConfigs_eq_filter loadedConfigs dbConfigs
  refine ⟨hf, ?_, ?_⟩
  · intro hall
    have hnil : removingConfigs loadedConfigs dbConfigs = [] := by
      rw [hf, List.map_eq_nil_iff, List.filter_eq_nil_iff]
      intro d hd
      simp [hall d hd]
    simp [bulkDeleteConfigQuery, hnil]
  · rintro ⟨d, hd, hn⟩
    have hpos : 0 < (removingConfigs loadedConfigs dbConfigs).length := by
      rw [hf, List.length_map]
      apply List.length_pos_of_mem
      exact List.mem_filter.mpr ⟨hd, by simpa using hn⟩
    simp only [bulkDeleteConfigQuery, gt_iff_lt, hpos, if_true]
    rw [hf]

/-- C30, at an input: `eth-usdt` is in the database and not loaded, `btc-usdt`
is loaded. -/
theorem sync_bulk_delete_witness :
    bulkDeleteConfigQuery
      [{ Name := "btc-usdt", FetchInterval := none, AggregateInterval := none
         SubmitInterval := none, Feeds := [] }]
      [{ ID := 3, Name := "btc-usdt", FetchInterval := none, AggregateInterval := none
         SubmitInterval := none },
       { ID := 8, Name := "eth-usdt", FetchInterval := none, AggregateInterval := none
         SubmitInterval := none }] =
    [AdminQuery.query "DELETE FROM configs WHERE id IN (8)"] :=
  ((sync_bulk_delete
    [{ Name := "btc-usdt", FetchInterval := none, AggregateInterval := none
       SubmitInterval := none, Feeds := [] }]
    [{ ID := 3, Name := "btc-usdt", FetchInterval := none, AggregateInterval := none
       SubmitInterval := none },
     { ID := 8, Name := "eth-usdt", FetchInterval := none, AggregateInterval := none
       SubmitInterval := none }]).2.2
    ⟨{ ID := 8, Name := "eth-usdt", FetchInterval := none, AggregateInterval := none
       SubmitInterval := none }, by decide, by decide⟩).trans (by decide)

end Orakl
